import Mathlib

/-!
Shallow embedding of `packages/compiler-cli/src/ngtsc/translator/src/translator.ts`:
the IR-lowering engine that converts the backend-neutral output IR of the compiler
into a TypeScript syntax tree.  IR nodes, the produced `ts.*` nodes, the operator
tables, the translation visitor, the localized-string lowering strategies, comment
attachment and the source-map descriptor cache are translated from the source;
the few collaborator types that live outside this file (the `Context` mode value,
the `LeadingComment.toString` rendering and the `LocalizedString` serialization
helpers) are modelled from the specification, as marked on their doc comments.
-/

namespace Translator

/-- Modelled from the spec: the `Context` value from `context.ts` (outside this
source file) carries one bit, "current position is a full statement" vs "nested
expression"; `withStatementMode` and `withExpressionMode` each return a context
with the corresponding bit set and `isStatement` exposes the bit. -/
structure Context where
  isStatement : Bool
deriving DecidableEq

def Context.withExpressionMode (_c : Context) : Context := ⟨false⟩

def Context.withStatementMode (_c : Context) : Context := ⟨true⟩

/-- A file referenced by a source span: `ParseSourceFile` with its URL and full text. -/
structure ParseSourceFile where
  url : String
  content : String
deriving DecidableEq

/-- A source span: originating file plus start/end byte offsets
(`sourceSpan.start.file`, `start.offset`, `end.offset` in the source). -/
structure ParseSourceSpan where
  file : ParseSourceFile
  startOffset : Nat
  endOffset : Nat
deriving DecidableEq

/-- Statement modifiers of the IR (`StmtModifier` in the compiler output AST). -/
inductive StmtModifier where
  | final
  | private_
  | exported
  | static_
deriving DecidableEq

/-- A leading comment of a statement: text, single-line-vs-block flag and
trailing-newline flag. -/
structure LeadingComment where
  text : String
  multiline : Bool
  trailingNewline : Bool
deriving DecidableEq

/-- Modelled from the spec: `LeadingComment.toString` (defined in the IR library,
outside this source file) renders a block comment "reproducing its exact text". -/
def LeadingComment.render (comment : LeadingComment) : String :=
  comment.text

/-- Primitive values a `LiteralExpr` can carry: `number|string|boolean|null|undefined`. -/
inductive JsValue where
  | undef
  | null
  | str (s : String)
  | num (n : Int)
  | bool (b : Bool)
deriving DecidableEq

/-- A cooked/raw pair as produced by the `LocalizedString` serialization helpers. -/
structure CookedRaw where
  cooked : String
  raw : String
deriving DecidableEq

/-- Modelled from the spec: `LocalizedString.serializeI18nHead` (IR library, outside
this source file) serializes the first message part, embedding the colon-delimited
metadata block ahead of its literal text. -/
def serializeI18nHead (metaBlock : String) (messageParts : List String) : CookedRaw :=
  let part0 := messageParts.getD 0 ""
  if metaBlock = "" then ⟨part0, part0⟩
  else ⟨":" ++ metaBlock ++ ":" ++ part0, ":" ++ metaBlock ++ ":" ++ part0⟩

/-- Modelled from the spec: `LocalizedString.serializeI18nTemplatePart` (IR library,
outside this source file) serializes message part `i` (for `i ≥ 1`), embedding the
colon-delimited placeholder-name block ahead of its literal text. -/
def serializeI18nTemplatePart (messageParts placeholderNames : List String) (i : Nat) :
    CookedRaw :=
  let placeholder := placeholderNames.getD (i - 1) ""
  let part := messageParts.getD i ""
  if placeholder = "" then ⟨part, part⟩
  else ⟨":" ++ placeholder ++ ":" ++ part, ":" ++ placeholder ++ ":" ++ part⟩

/-- Modelled from the spec: `LocalizedString.getMessagePartSourceSpan` (IR library,
outside this source file); each message part carries its own source span. -/
def getMessagePartSourceSpan (messagePartSpans : List (Option ParseSourceSpan)) (i : Nat) :
    Option ParseSourceSpan :=
  messagePartSpans.getD i none

/-- Modelled from the spec: `LocalizedString.getPlaceholderSourceSpan` (IR library,
outside this source file); each expression position carries its own source span. -/
def getPlaceholderSourceSpan (placeholderSpans : List (Option ParseSourceSpan)) (i : Nat) :
    Option ParseSourceSpan :=
  placeholderSpans.getD i none

/-- The prefix unary operator tokens of the produced TypeScript AST used here. -/
inductive TsPrefixUnaryOp where
  | minusToken
  | plusToken
  | exclamationToken
deriving DecidableEq

/-- The binary operator tokens of the produced TypeScript AST used here
(`equalsToken` is the assignment token used by the write-expression cases). -/
inductive TsBinaryOp where
  | ampAmpToken
  | greaterThanToken
  | greaterThanEqualsToken
  | ampToken
  | slashToken
  | equalsEqualsToken
  | equalsEqualsEqualsToken
  | lessThanToken
  | lessThanEqualsToken
  | minusToken
  | percentToken
  | asteriskToken
  | exclamationEqualsToken
  | exclamationEqualsEqualsToken
  | barBarToken
  | plusToken
  | equalsToken
deriving DecidableEq

/-- The `UnaryOperator` enum of the IR is a TypeScript numeric enum
(`Minus = 0, Plus = 1`); operators are represented by their numeric code, so that
codes outside the table exist, exactly as in the source language.
`UNARY_OPERATORS` is the fixed table from the top of the source file. -/
def UNARY_OPERATORS : List (Nat × TsPrefixUnaryOp) :=
  [(0, .minusToken), (1, .plusToken)]

/-- The `BinaryOperator` enum of the IR is a TypeScript numeric enum
(`Equals = 0, NotEquals = 1, Identical = 2, NotIdentical = 3, Minus = 4, Plus = 5,
Divide = 6, Multiply = 7, Modulo = 8, And = 9, Or = 10, BitwiseAnd = 11, Lower = 12,
LowerEquals = 13, Bigger = 14, BiggerEquals = 15`).  `BINARY_OPERATORS` is the fixed
table from the top of the source file, in its source listing order. -/
def BINARY_OPERATORS : List (Nat × TsBinaryOp) :=
  [(9, .ampAmpToken),                 -- And
   (14, .greaterThanToken),           -- Bigger
   (15, .greaterThanEqualsToken),     -- BiggerEquals
   (11, .ampToken),                   -- BitwiseAnd
   (6, .slashToken),                  -- Divide
   (0, .equalsEqualsToken),           -- Equals
   (2, .equalsEqualsEqualsToken),     -- Identical
   (12, .lessThanToken),              -- Lower
   (13, .lessThanEqualsToken),        -- LowerEquals
   (4, .minusToken),                  -- Minus
   (8, .percentToken),                -- Modulo
   (7, .asteriskToken),               -- Multiply
   (1, .exclamationEqualsToken),      -- NotEquals
   (3, .exclamationEqualsEqualsToken), -- NotIdentical
   (10, .barBarToken),                -- Or
   (5, .plusToken)]                   -- Plus

/-- The sources registered in the source-map descriptor cache:
`ts.createSourceMapSource(url, content, pos => pos)`. -/
structure SourceMapSource where
  fileName : String
  text : String
deriving DecidableEq

/-- A source-map range attached to an output node:
`{pos: start.offset, end: end.offset, source}`. -/
structure SourceMapRange where
  pos : Nat
  endPos : Nat
  source : SourceMapSource
deriving DecidableEq

/-- The variable-declaration-list flags chosen by `visitDeclareVarStmt`
(`ts.NodeFlags.None`, `ts.NodeFlags.Let`, `ts.NodeFlags.Const`). -/
inductive TsVarFlags where
  | noneFlag
  | letFlag
  | constFlag
deriving DecidableEq

/-- A synthetic leading trivia unit added by `ts.addSyntheticLeadingComment`:
comment kind (block vs single-line), text and trailing-newline flag. -/
structure Trivia where
  multiline : Bool
  text : String
  trailingNewline : Bool
deriving DecidableEq

/-- Property names of an object literal: quoted keys become string literals,
unquoted keys identifiers (`visitLiteralMapExpr`). -/
inductive TsPropName where
  | stringName (text : String)
  | identName (text : String)
deriving DecidableEq

/-- Whether a template literal part is a middle or the tail part. -/
inductive TsTemplatePartKind where
  | middle
  | tail
deriving DecidableEq

/-- The result of `ImportManager.generateNamedImport(moduleName, name)`: a local
module alias if an import was generated (`null` when the symbol turned out to be
ambient) together with the possibly-renamed symbol. -/
structure ImportRes where
  moduleImport : Option String
  symbol : String
deriving DecidableEq

mutual

/-- The produced TypeScript expression nodes (`ts.Expression`), restricted to the
node shapes this translator builds.  `withSrcRange` models
`ts.setSourceMapRange(expr, range)` attaching a range to the node; the `Bool` on
`call` models the synthetic `@__PURE__` comment added by `visitInvokeFunctionExpr`. -/
inductive TsExpr where
  | ident (text : String)
  | paren (expression : TsExpr)
  | binary (left : TsExpr) (operatorToken : TsBinaryOp) (right : TsExpr)
  | prefixUnary (operator : TsPrefixUnaryOp) (operand : TsExpr)
  | propertyAccess (expression : TsExpr) (name : String)
  | elementAccess (expression : TsExpr) (argumentExpression : TsExpr)
  | call (expression : TsExpr) (args : List TsExpr) (pureComment : Bool)
  | newExpr (expression : TsExpr) (args : List TsExpr)
  | nullLiteral
  | stringLiteral (text : String)
  | numericLiteral (value : Int)
  | booleanLiteral (value : Bool)
  | arrayLiteral (elements : List TsExpr)
  | objectLiteral (properties : List TsObjectProp)
  | conditional (condition : TsExpr) (whenTrue : TsExpr) (whenFalse : TsExpr)
  | functionExpression (name : Option String) (params : List String) (body : List TsStmt)
  | typeofExpression (expression : TsExpr)
  | taggedTemplate (tag : TsExpr) (template : TsTemplate)
  | withSrcRange (range : SourceMapRange) (expression : TsExpr)

/-- A property assignment of an object literal. -/
inductive TsObjectProp where
  | mk (name : TsPropName) (value : TsExpr)

/-- A template literal: either a no-substitution literal or a head followed by spans. -/
inductive TsTemplate where
  | noSubstitution (cooked : String) (raw : String) (litRange : Option SourceMapRange)
  | templateExpr (headCooked : String) (headRaw : String)
      (headRange : Option SourceMapRange) (spans : List TsTemplateSpan)

/-- A template span: a spliced expression followed by a middle or tail literal part. -/
inductive TsTemplateSpan where
  | mk (expression : TsExpr) (cooked : String) (raw : String)
      (kind : TsTemplatePartKind) (litRange : Option SourceMapRange)

/-- A produced TypeScript statement: the node plus its synthetic leading trivia
(comments accumulated by `ts.addSyntheticLeadingComment`). -/
inductive TsStmt where
  | mk (node : TsStmtNode) (comments : List Trivia)

/-- The produced TypeScript statement nodes (`ts.Statement`) built by this
translator.  A variable statement records the declaration-list flags, the declared
name and the optional initializer. -/
inductive TsStmtNode where
  | variableStatement (flags : TsVarFlags) (name : String) (initializer : Option TsExpr)
  | functionDeclaration (name : String) (params : List String) (body : List TsStmt)
  | expressionStatement (expression : TsExpr)
  | returnStatement (expression : TsExpr)
  | ifStatement (condition : TsExpr) (thenBlock : List TsStmt)
      (elseBlock : Option (List TsStmt))
  | throwStatement (expression : TsExpr)

end

def TsStmt.node : TsStmt → TsStmtNode
  | .mk n _ => n

def TsStmt.comments : TsStmt → List Trivia
  | .mk _ cs => cs

/-- Appending synthetic leading trivia to a statement
(`ts.addSyntheticLeadingComment` appends to the node's synthetic comments). -/
def TsStmt.addTrivia : TsStmt → List Trivia → TsStmt
  | .mk n cs, ts => .mk n (cs ++ ts)

def TsTemplateSpan.expression : TsTemplateSpan → TsExpr
  | .mk e _ _ _ _ => e

def TsTemplateSpan.cooked : TsTemplateSpan → String
  | .mk _ c _ _ _ => c

def TsTemplateSpan.raw : TsTemplateSpan → String
  | .mk _ _ r _ _ => r

def TsTemplateSpan.kind : TsTemplateSpan → TsTemplatePartKind
  | .mk _ _ _ k _ => k

mutual

/-- The IR expression nodes (`Expression` in the compiler output AST), one
constructor per visited variant.  Numeric operator codes mirror the TypeScript
numeric enums.  `localizedString` carries the fields of `LocalizedString` used by
the translator; `wrappedNode` carries an already-built output node. -/
inductive Expr where
  | readVar (name : String) (sourceSpan : Option ParseSourceSpan)
  | writeVar (name : String) (value : Expr)
  | writeKey (receiver : Expr) (index : Expr) (value : Expr)
  | writeProp (receiver : Expr) (name : String) (value : Expr)
  | invokeMethod (receiver : Expr) (name : Option String) (args : List Expr)
      (sourceSpan : Option ParseSourceSpan)
  | invokeFunction (fn : Expr) (args : List Expr) (isPure : Bool)
      (sourceSpan : Option ParseSourceSpan)
  | instantiate (classExpr : Expr) (args : List Expr)
  | literal (value : JsValue) (sourceSpan : Option ParseSourceSpan)
  | localizedString (metaBlock : String) (messageParts : List String)
      (placeholderNames : List String) (expressions : List Expr)
      (messagePartSpans : List (Option ParseSourceSpan))
      (placeholderSpans : List (Option ParseSourceSpan))
      (sourceSpan : Option ParseSourceSpan)
  | externalExpr (moduleName : Option String) (name : Option String)
  | conditional (condition : Expr) (trueCase : Expr) (falseCase : Option Expr)
  | notExpr (condition : Expr)
  | assertNotNull (condition : Expr)
  | cast (value : Expr)
  | functionExpr (name : Option String) (params : List String) (statements : List Stmt)
  | unaryOp (operator : Nat) (expr : Expr)
  | binaryOp (operator : Nat) (lhs : Expr) (rhs : Expr)
  | readProp (receiver : Expr) (name : String)
  | readKey (receiver : Expr) (index : Expr)
  | literalArray (entries : List Expr) (sourceSpan : Option ParseSourceSpan)
  | literalMap (entries : List MapEntry) (sourceSpan : Option ParseSourceSpan)
  | comma (parts : List Expr)
  | wrappedNode (node : TsExpr)
  | typeofExpr (expr : Expr)

/-- One entry of a literal map: key, quoted flag and value expression. -/
inductive MapEntry where
  | mk (key : String) (quoted : Bool) (value : Expr)

/-- The IR statement nodes (`Statement` in the compiler output AST), one
constructor per visited variant, each carrying its optional leading comments. -/
inductive Stmt where
  | declareVar (name : String) (value : Option Expr) (modifiers : List StmtModifier)
      (leadingComments : Option (List LeadingComment))
  | declareFunction (name : String) (params : List String) (statements : List Stmt)
      (leadingComments : Option (List LeadingComment))
  | declareClass (name : String) (leadingComments : Option (List LeadingComment))
  | expressionStatement (expr : Expr) (leadingComments : Option (List LeadingComment))
  | returnStatement (value : Expr) (leadingComments : Option (List LeadingComment))
  | ifStmt (condition : Expr) (trueCase : List Stmt) (falseCase : List Stmt)
      (leadingComments : Option (List LeadingComment))
  | tryCatch (leadingComments : Option (List LeadingComment))
  | throwStmt (error : Expr) (leadingComments : Option (List LeadingComment))

end

/-- The fatal conditions the translator can raise (`throw new Error(...)` in the
source).  `unsupportedDeclareClass` is the message that additionally names the
script target when a class statement is visited below ES2015;
`methodNotImplemented` is the generic `Method not implemented.` error;
`jsUndefinedAccess` models the runtime TypeError of calling a method on the
`undefined` produced by an out-of-range array access or a null-asserted null. -/
inductive TrError where
  | unsupportedDeclareClass (className : String) (scriptTarget : Nat)
  | methodNotImplemented
  | unknownUnaryOperator (operator : Nat)
  | unknownBinaryOperator (operator : Nat)
  | importUnknownModuleOrSymbol
  | jsUndefinedAccess
deriving DecidableEq

/-- The body of `setSourceMapRange` (translator source lines 454-466), with the
visitor's `externalSourceFiles` cache (a map keyed by file URL) made explicit as
an association list.  Returns the updated cache and the range attached to the
node, if any.  Note the JavaScript truthiness test `if (url)`: a span whose file
URL is the empty string attaches no range and touches no descriptor. -/
def setSourceMapRange (externalSourceFiles : List (String × SourceMapSource))
    (sourceSpan : Option ParseSourceSpan) :
    List (String × SourceMapSource) × Option SourceMapRange :=
  match sourceSpan with
  | none => (externalSourceFiles, none)
  | some span =>
    let url := span.file.url
    if url = "" then (externalSourceFiles, none)
    else
      match externalSourceFiles.lookup url with
      | some source =>
          (externalSourceFiles, some ⟨span.startOffset, span.endOffset, source⟩)
      | none =>
          let source : SourceMapSource := ⟨url, span.file.content⟩
          (externalSourceFiles ++ [(url, source)],
           some ⟨span.startOffset, span.endOffset, source⟩)

/-- The range `setSourceMapRange` attaches for a given span.  A source-map
descriptor is a pure function of the span's file (URL and content), so the range
is independent of the cache contents; the cache in `setSourceMapRange` only
deduplicates descriptor objects per URL within one run. -/
def sourceMapRangeOf (sourceSpan : Option ParseSourceSpan) : Option SourceMapRange :=
  match sourceSpan with
  | none => none
  | some span =>
    if span.file.url = "" then none
    else some ⟨span.startOffset, span.endOffset, ⟨span.file.url, span.file.content⟩⟩

/-- Attaching the source-map range of a span to an expression node, used by the
visitor wherever the source calls `this.setSourceMapRange(expr, span)`.  Setting
a range on a node that already carries one overwrites it (`ts.setSourceMapRange`
stores the range on the node); when the call attaches nothing (no span, or an
empty file URL) the node keeps whatever range it had. -/
def withSpan (expression : TsExpr) (sourceSpan : Option ParseSourceSpan) : TsExpr :=
  match sourceMapRangeOf sourceSpan with
  | none => expression
  | some range =>
    match expression with
    | .withSrcRange _ e => .withSrcRange range e
    | e => .withSrcRange range e

/-- The `createLiteral` private helper: a string literal carrying the span's range. -/
def createLiteral (text : String) (span : Option ParseSourceSpan) : TsExpr :=
  withSpan (.stringLiteral text) span

/-- JavaScript `text.split('\n')` over the character sequence: splitting at every
line break, keeping empty segments, never returning an empty list. -/
def splitNewlineChars : List Char → List (List Char)
  | [] => [[]]
  | c :: cs =>
    let rest := splitNewlineChars cs
    if c = '\n' then [] :: rest
    else
      match rest with
      | [] => [[c]]
      | l :: ls => (c :: l) :: ls

/-- JavaScript `comment.text.split('\n')` at the string level. -/
def splitNewline (s : String) : List String :=
  (splitNewlineChars s.data).map fun l => ⟨l⟩

/-- The trivia units one leading comment contributes (the body of the
`for (const comment of leadingComments)` loop in `attachComments`): a block
comment is attached as one block trivia unit with its rendered text; a
single-line comment is split by line break, each line attached as its own
single-line trivia unit sharing the comment's trailing-newline flag. -/
def commentTrivia (comment : LeadingComment) : List Trivia :=
  if comment.multiline then
    [⟨true, comment.render, comment.trailingNewline⟩]
  else
    (splitNewline comment.text).map fun line => ⟨false, line, comment.trailingNewline⟩

/-- The exported `attachComments` function (translator source lines 497-516):
attach the trivia of each leading comment to the statement, in order; absent
comment lists leave the statement untouched. -/
def attachComments (statement : TsStmt) :
    Option (List LeadingComment) → TsStmt
  | none => statement
  | some leadingComments =>
      leadingComments.foldl (fun stmt comment => stmt.addTrivia (commentTrivia comment))
        statement

/-- JavaScript truthiness of `ast.name || undefined` in `visitFunctionExpr`:
a null or empty-string name yields an anonymous function expression. -/
def jsNameOrUndefined (name : Option String) : Option String :=
  match name with
  | none => none
  | some n => if n = "" then none else some n

/-- The `Statement.hasModifier` test of the IR: membership in the node's
modifier list. -/
def hasModifier (modifiers : List StmtModifier) (modifier : StmtModifier) : Bool :=
  modifiers.contains modifier

/-- Whether an IR expression is a conditional expression:
`ast.condition instanceof ConditionalExpr` in `visitConditionalExpr`. -/
def isConditionalExpr : Expr → Bool
  | .conditional _ _ _ => true
  | _ => false

/-- The `__makeTemplateObjectHelper` local of `createLocalizedStringFunctionCall`
(source lines 424-428): the helper is requested from the runtime support library
`tslib` by its well-known name through the import-resolution collaborator and
referenced either bare (no alias) or through the module alias. -/
def makeTemplateObjectHelper (imports : String → String → ImportRes) : TsExpr :=
  match (imports "tslib" "__makeTemplateObject").moduleImport with
  | none => TsExpr.ident (imports "tslib" "__makeTemplateObject").symbol
  | some moduleImport =>
      TsExpr.propertyAccess (.ident moduleImport)
        (imports "tslib" "__makeTemplateObject").symbol

/-- The `varType` computation of `visitDeclareVarStmt` (source lines 65-67):
below ES2015 every declaration degrades to no flags (a `var` binding); at ES2015
or above the `Final` modifier selects `Const`, its absence `Let`. -/
def declareVarFlags (scriptTarget : Nat) (modifiers : List StmtModifier) : TsVarFlags :=
  if scriptTarget < 2 then .noneFlag
  else if hasModifier modifiers .final then .constFlag
  else .letFlag

mutual

/-- The expression half of `ExpressionTranslatorVisitor`: one match arm per
`visit*` method, parameterized by the import-resolution collaborator
(`this.imports.generateNamedImport`), the capability tier (`this.scriptTarget`,
with `ts.ScriptTarget.ES2015 = 2`) and the current context.  The
`localizedString` arm inlines `visitLocalizedString` together with the bodies of
`createLocalizedStringTaggedTemplate` and `createLocalizedStringFunctionCall`;
the standalone definitions of those two strategies below are proved equal to
this arm by `trExpr_localizedString`.  The default-import recorder collaborator
(notified in `visitWrappedNodeExpr`, bookkeeping only) is not modelled. -/
def trExpr (imports : String → String → ImportRes) (scriptTarget : Nat)
    (ctx : Context) : Expr → Except TrError TsExpr
  | .readVar name sourceSpan =>
      -- visitReadVarExpr
      .ok (withSpan (.ident name) sourceSpan)
  | .writeVar name value => do
      -- visitWriteVarExpr: value visited in the incoming context; the assignment
      -- is parenthesized unless the context is a statement position.
      let v ← trExpr imports scriptTarget ctx value
      let result := TsExpr.binary (.ident name) .equalsToken v
      .ok (if ctx.isStatement then result else .paren result)
  | .writeKey receiver index value => do
      -- visitWriteKeyExpr: receiver, index and value visited in expression mode;
      -- same parenthesization rule as visitWriteVarExpr.
      let exprContext := ctx.withExpressionMode
      let r ← trExpr imports scriptTarget exprContext receiver
      let i ← trExpr imports scriptTarget exprContext index
      let v ← trExpr imports scriptTarget exprContext value
      let result := TsExpr.binary (.elementAccess r i) .equalsToken v
      .ok (if ctx.isStatement then result else .paren result)
  | .writeProp receiver name value => do
      -- visitWritePropExpr: never parenthesized, in either context.
      let r ← trExpr imports scriptTarget ctx receiver
      let v ← trExpr imports scriptTarget ctx value
      .ok (.binary (.propertyAccess r name) .equalsToken v)
  | .invokeMethod receiver name args sourceSpan => do
      -- visitInvokeMethodExpr: a null method name invokes the receiver directly.
      let target ← trExpr imports scriptTarget ctx receiver
      let args' ← trExprs imports scriptTarget ctx args
      let callee := match name with
        | some n => TsExpr.propertyAccess target n
        | none => target
      .ok (withSpan (.call callee args' false) sourceSpan)
  | .invokeFunction fn args isPure sourceSpan => do
      -- visitInvokeFunctionExpr: a pure call gets the @__PURE__ hint comment.
      let f ← trExpr imports scriptTarget ctx fn
      let args' ← trExprs imports scriptTarget ctx args
      .ok (withSpan (.call f args' isPure) sourceSpan)
  | .instantiate classExpr args => do
      -- visitInstantiateExpr
      let c ← trExpr imports scriptTarget ctx classExpr
      let args' ← trExprs imports scriptTarget ctx args
      .ok (.newExpr c args')
  | .literal value sourceSpan =>
      -- visitLiteralExpr: undefined becomes the identifier "undefined", null the
      -- null literal, any other value a literal of its primitive kind.
      let e := match value with
        | .undef => TsExpr.ident "undefined"
        | .null => TsExpr.nullLiteral
        | .str s => TsExpr.stringLiteral s
        | .num n => TsExpr.numericLiteral n
        | .bool b => TsExpr.booleanLiteral b
      .ok (withSpan e sourceSpan)
  | .localizedString metaBlock messageParts placeholderNames expressions
      messagePartSpans placeholderSpans sourceSpan =>
      -- visitLocalizedString: the capability tier selects the lowering strategy
      -- and the node's source span is attached to its result.
      (if 2 ≤ scriptTarget then do
          -- createLocalizedStringTaggedTemplate, inlined: build the template
          -- literal, tag it with `$localize` and set the node's own range.
          let metaBlockPart := serializeI18nHead metaBlock messageParts
          let template ←
            if messageParts.length = 1 then
              Except.ok (TsTemplate.noSubstitution metaBlockPart.cooked metaBlockPart.raw
                (sourceMapRangeOf (getMessagePartSourceSpan messagePartSpans 0)))
            else do
              let spans ← buildTemplateSpans imports scriptTarget ctx messageParts
                placeholderNames messagePartSpans placeholderSpans 1
                (messageParts.drop 1) expressions
              Except.ok (TsTemplate.templateExpr metaBlockPart.cooked metaBlockPart.raw
                (sourceMapRangeOf (getMessagePartSourceSpan messagePartSpans 0)) spans)
          .ok (withSpan (TsExpr.taggedTemplate (.ident "$localize") template) sourceSpan)
        else do
          -- createLocalizedStringFunctionCall, inlined
          let headPart := serializeI18nHead metaBlock messageParts
          let parts ← buildFunctionCallParts imports scriptTarget ctx messageParts
            placeholderNames 1 (messageParts.drop 1) expressions
          let msgParts := headPart :: parts.1
          let helper := makeTemplateObjectHelper imports
          let cookedLiterals := msgParts.enum.map fun p =>
            createLiteral p.2.cooked (getMessagePartSourceSpan messagePartSpans p.1)
          let rawLiterals := msgParts.enum.map fun p =>
            createLiteral p.2.raw (getMessagePartSourceSpan messagePartSpans p.1)
          .ok (TsExpr.call (.ident "$localize")
            (TsExpr.call helper [.arrayLiteral cookedLiterals, .arrayLiteral rawLiterals]
                false
              :: parts.2) false) : Except TrError TsExpr).bind
        fun localized => .ok (withSpan localized sourceSpan)
  | .externalExpr moduleName name =>
      -- visitExternalExpr: a null symbol name is a fatal error; a present module
      -- name delegates to the import-resolution collaborator; otherwise the
      -- symbol is ambient and referenced directly.
      match name with
      | none => .error .importUnknownModuleOrSymbol
      | some n =>
        match moduleName with
        | some m =>
            let res := imports m n
            match res.moduleImport with
            | none => .ok (.ident res.symbol)
            | some moduleImport => .ok (.propertyAccess (.ident moduleImport) res.symbol)
        | none => .ok (.ident n)
  | .conditional condition trueCase falseCase => do
      -- visitConditionalExpr: the condition is wrapped in parentheses exactly
      -- when it is itself a conditional expression; a null false case crashes
      -- when the non-null assertion is dereferenced.
      let c ← trExpr imports scriptTarget ctx condition
      let cond := if isConditionalExpr condition then TsExpr.paren c else c
      let t ← trExpr imports scriptTarget ctx trueCase
      match falseCase with
      | none => .error .jsUndefinedAccess
      | some f => do
          let fe ← trExpr imports scriptTarget ctx f
          .ok (.conditional cond t fe)
  | .notExpr condition => do
      -- visitNotExpr
      let c ← trExpr imports scriptTarget ctx condition
      .ok (.prefixUnary .exclamationToken c)
  | .assertNotNull condition =>
      -- visitAssertNotNullExpr: identity on the translated inner expression.
      trExpr imports scriptTarget ctx condition
  | .cast value =>
      -- visitCastExpr: identity on the translated inner expression.
      trExpr imports scriptTarget ctx value
  | .functionExpr name params statements => do
      -- visitFunctionExpr: body statements visited in the incoming context.
      let body ← trStmts imports scriptTarget ctx statements
      .ok (.functionExpression (jsNameOrUndefined name) params body)
  | .unaryOp operator expr =>
      -- visitUnaryOperatorExpr: a table miss is a fatal error.
      match UNARY_OPERATORS.lookup operator with
      | none => .error (.unknownUnaryOperator operator)
      | some op => do
          let e ← trExpr imports scriptTarget ctx expr
          .ok (.prefixUnary op e)
  | .binaryOp operator lhs rhs =>
      -- visitBinaryOperatorExpr: a table miss is a fatal error.
      match BINARY_OPERATORS.lookup operator with
      | none => .error (.unknownBinaryOperator operator)
      | some op => do
          let l ← trExpr imports scriptTarget ctx lhs
          let r ← trExpr imports scriptTarget ctx rhs
          .ok (.binary l op r)
  | .readProp receiver name => do
      -- visitReadPropExpr
      let r ← trExpr imports scriptTarget ctx receiver
      .ok (.propertyAccess r name)
  | .readKey receiver index => do
      -- visitReadKeyExpr
      let r ← trExpr imports scriptTarget ctx receiver
      let i ← trExpr imports scriptTarget ctx index
      .ok (.elementAccess r i)
  | .literalArray entries sourceSpan => do
      -- visitLiteralArrayExpr
      let es ← trExprs imports scriptTarget ctx entries
      .ok (withSpan (.arrayLiteral es) sourceSpan)
  | .literalMap entries sourceSpan => do
      -- visitLiteralMapExpr
      let props ← trMapEntries imports scriptTarget ctx entries
      .ok (withSpan (.objectLiteral props) sourceSpan)
  | .comma _ =>
      -- visitCommaExpr: always fails with "Method not implemented."
      .error .methodNotImplemented
  | .wrappedNode node =>
      -- visitWrappedNodeExpr: passthrough of the already-built output node.
      .ok node
  | .typeofExpr expr => do
      -- visitTypeofExpr
      let e ← trExpr imports scriptTarget ctx expr
      .ok (.typeofExpression e)

/-- Sequential translation of an expression list (the `.map` calls over argument
and entry lists in the visitor). -/
def trExprs (imports : String → String → ImportRes) (scriptTarget : Nat)
    (ctx : Context) : List Expr → Except TrError (List TsExpr)
  | [] => .ok []
  | e :: es => do
      let e' ← trExpr imports scriptTarget ctx e
      let es' ← trExprs imports scriptTarget ctx es
      .ok (e' :: es')

/-- Translation of the entries of a literal map (`visitLiteralMapExpr`): a quoted
key becomes a string literal property name, an unquoted key an identifier. -/
def trMapEntries (imports : String → String → ImportRes) (scriptTarget : Nat)
    (ctx : Context) : List MapEntry → Except TrError (List TsObjectProp)
  | [] => .ok []
  | .mk key quoted value :: es => do
      let v ← trExpr imports scriptTarget ctx value
      let rest ← trMapEntries imports scriptTarget ctx es
      .ok (.mk (if quoted then .stringName key else .identName key) v :: rest)

/-- The statement half of `ExpressionTranslatorVisitor`. -/
def trStmt (imports : String → String → ImportRes) (scriptTarget : Nat)
    (ctx : Context) : Stmt → Except TrError TsStmt
  | .declareVar name none modifiers leadingComments =>
      -- visitDeclareVarStmt without initializer
      .ok (attachComments
        (.mk (.variableStatement (declareVarFlags scriptTarget modifiers) name none) [])
        leadingComments)
  | .declareVar name (some value) modifiers leadingComments => do
      -- visitDeclareVarStmt: the initializer is visited in expression mode.
      let v ← trExpr imports scriptTarget ctx.withExpressionMode value
      .ok (attachComments
        (.mk (.variableStatement (declareVarFlags scriptTarget modifiers) name (some v)) [])
        leadingComments)
  | .declareFunction name params statements leadingComments => do
      -- visitDeclareFunctionStmt: body statements visited in statement mode.
      let body ← trStmts imports scriptTarget ctx.withStatementMode statements
      .ok (attachComments (.mk (.functionDeclaration name params body) []) leadingComments)
  | .declareClass name _ =>
      -- visitDeclareClassStmt: always fails; below ES2015 the message
      -- additionally names the script target.
      if scriptTarget < 2 then .error (.unsupportedDeclareClass name scriptTarget)
      else .error .methodNotImplemented
  | .expressionStatement expr leadingComments => do
      -- visitExpressionStmt: the contained expression is visited in statement mode.
      let e ← trExpr imports scriptTarget ctx.withStatementMode expr
      .ok (attachComments (.mk (.expressionStatement e) []) leadingComments)
  | .returnStatement value leadingComments => do
      -- visitReturnStmt: the contained expression is visited in expression mode.
      let e ← trExpr imports scriptTarget ctx.withExpressionMode value
      .ok (attachComments (.mk (.returnStatement e) []) leadingComments)
  | .ifStmt condition trueCase falseCase leadingComments => do
      -- visitIfStmt: branch children in statement mode, the condition in the
      -- parent's context unchanged; an empty false branch yields no else block.
      let thenBlock ← trStmts imports scriptTarget ctx.withStatementMode trueCase
      let elseBlock ←
        if falseCase.length > 0 then do
          let b ← trStmts imports scriptTarget ctx.withStatementMode falseCase
          pure (some b)
        else pure none
      let cond ← trExpr imports scriptTarget ctx condition
      .ok (attachComments (.mk (.ifStatement cond thenBlock elseBlock) []) leadingComments)
  | .tryCatch _ =>
      -- visitTryCatchStmt: always fails with "Method not implemented."
      .error .methodNotImplemented
  | .throwStmt error leadingComments => do
      -- visitThrowStmt: the contained expression is visited in expression mode.
      let e ← trExpr imports scriptTarget ctx.withExpressionMode error
      .ok (attachComments (.mk (.throwStatement e) []) leadingComments)

/-- Sequential translation of a statement list. -/
def trStmts (imports : String → String → ImportRes) (scriptTarget : Nat)
    (ctx : Context) : List Stmt → Except TrError (List TsStmt)
  | [] => .ok []
  | s :: ss => do
      let s' ← trStmt imports scriptTarget ctx s
      let ss' ← trStmts imports scriptTarget ctx ss
      .ok (s' :: ss')

/-- The head and middle/tail loop of `createLocalizedStringTaggedTemplate`
(source lines 364-387): for each remaining message part index `i` (the first
list argument is `messageParts.drop 1`, so it drives indices `1` to
`length - 1`), splice `expressions[i - 1]` (the second list argument is walked
in step, so its head is exactly that element) with the serialized part `i`; the
last part becomes the template tail, the earlier ones template middles.  Running
out of expressions, or out of parts before the loop ran at all, models the crash
on the `undefined` produced by `ast.expressions[i - 1]`. -/
def buildTemplateSpans (imports : String → String → ImportRes) (scriptTarget : Nat)
    (ctx : Context) (messageParts placeholderNames : List String)
    (messagePartSpans placeholderSpans : List (Option ParseSourceSpan)) (i : Nat) :
    List String → List Expr → Except TrError (List TsTemplateSpan)
  | [], _ => .error .jsUndefinedAccess
  | [_], [] => .error .jsUndefinedAccess
  | [_], e :: _ => do
      -- the tail part (i = length - 1 here)
      let resolvedExpression ← trExpr imports scriptTarget ctx e
      let wrapped := withSpan resolvedExpression
        (getPlaceholderSourceSpan placeholderSpans (i - 1))
      let templatePart := serializeI18nTemplatePart messageParts placeholderNames i
      .ok [.mk wrapped templatePart.cooked templatePart.raw .tail
        (sourceMapRangeOf (getMessagePartSourceSpan messagePartSpans i))]
  | _ :: _ :: _, [] => .error .jsUndefinedAccess
  | _ :: rest :: more, e :: es => do
      -- a middle part (1 ≤ i ≤ length - 2 here)
      let resolvedExpression ← trExpr imports scriptTarget ctx e
      let wrapped := withSpan resolvedExpression
        (getPlaceholderSourceSpan placeholderSpans (i - 1))
      let templatePart := serializeI18nTemplatePart messageParts placeholderNames i
      let templateSpan := TsTemplateSpan.mk wrapped templatePart.cooked templatePart.raw
        .middle (sourceMapRangeOf (getMessagePartSourceSpan messagePartSpans i))
      let spans ← buildTemplateSpans imports scriptTarget ctx messageParts
        placeholderNames messagePartSpans placeholderSpans (i + 1) (rest :: more) es
      .ok (templateSpan :: spans)

/-- The interleaving loop of `createLocalizedStringFunctionCall` (source lines
417-420): for each remaining message part index `i` (first list argument is
`messageParts.drop 1`), push `expressions[i - 1]` translated and the serialized
part `i`; returns the accumulated serialized parts and translated expressions in
original order.  Running out of expressions while parts remain models the crash
on the `undefined` produced by `ast.expressions[i - 1]`. -/
def buildFunctionCallParts (imports : String → String → ImportRes) (scriptTarget : Nat)
    (ctx : Context) (messageParts placeholderNames : List String) (i : Nat) :
    List String → List Expr → Except TrError (List CookedRaw × List TsExpr)
  | [], _ => .ok ([], [])
  | _ :: _, [] => .error .jsUndefinedAccess
  | _ :: rest, e :: es => do
      let re ← trExpr imports scriptTarget ctx e
      let (ps, rs) ← buildFunctionCallParts imports scriptTarget ctx messageParts
        placeholderNames (i + 1) rest es
      .ok (serializeI18nTemplatePart messageParts placeholderNames i :: ps, re :: rs)

end

/-- The public entry point `translateExpression` (source lines 41-47): the
traversal starts in expression mode (`new Context(false)`). -/
def translateExpression (expression : Expr) (imports : String → String → ImportRes)
    (scriptTarget : Nat) : Except TrError TsExpr :=
  trExpr imports scriptTarget ⟨false⟩ expression

/-- The public entry point `translateStatement` (source lines 49-55): the
traversal starts in statement mode (`new Context(true)`). -/
def translateStatement (statement : Stmt) (imports : String → String → ImportRes)
    (scriptTarget : Nat) : Except TrError TsStmt :=
  trStmt imports scriptTarget ⟨true⟩ statement

/-- The `createLocalizedStringTaggedTemplate` strategy (source lines 356-392) as
a standalone definition; `trExpr_localizedString` proves it is exactly what the
`localizedString` arm of `trExpr` runs at the modern tier. -/
def createLocalizedStringTaggedTemplate (imports : String → String → ImportRes)
    (scriptTarget : Nat) (ctx : Context) (metaBlock : String)
    (messageParts placeholderNames : List String)
    (expressions : List Expr)
    (messagePartSpans placeholderSpans : List (Option ParseSourceSpan))
    (sourceSpan : Option ParseSourceSpan) : Except TrError TsExpr := do
  let metaBlockPart := serializeI18nHead metaBlock messageParts
  let template ←
    if messageParts.length = 1 then
      Except.ok (TsTemplate.noSubstitution metaBlockPart.cooked metaBlockPart.raw
        (sourceMapRangeOf (getMessagePartSourceSpan messagePartSpans 0)))
    else do
      let spans ← buildTemplateSpans imports scriptTarget ctx messageParts
        placeholderNames messagePartSpans placeholderSpans 1
        (messageParts.drop 1) expressions
      Except.ok (TsTemplate.templateExpr metaBlockPart.cooked metaBlockPart.raw
        (sourceMapRangeOf (getMessagePartSourceSpan messagePartSpans 0)) spans)
  .ok (withSpan (TsExpr.taggedTemplate (.ident "$localize") template) sourceSpan)

/-- The `createLocalizedStringFunctionCall` strategy (source lines 398-451) as a
standalone definition; `trExpr_localizedString` proves it is exactly what the
`localizedString` arm of `trExpr` runs at the legacy tier. -/
def createLocalizedStringFunctionCall (imports : String → String → ImportRes)
    (scriptTarget : Nat) (ctx : Context) (metaBlock : String)
    (messageParts placeholderNames : List String)
    (expressions : List Expr)
    (messagePartSpans : List (Option ParseSourceSpan)) : Except TrError TsExpr := do
  let headPart := serializeI18nHead metaBlock messageParts
  let parts ← buildFunctionCallParts imports scriptTarget ctx messageParts
    placeholderNames 1 (messageParts.drop 1) expressions
  let msgParts := headPart :: parts.1
  let helper := makeTemplateObjectHelper imports
  let cookedLiterals := msgParts.enum.map fun p =>
    createLiteral p.2.cooked (getMessagePartSourceSpan messagePartSpans p.1)
  let rawLiterals := msgParts.enum.map fun p =>
    createLiteral p.2.raw (getMessagePartSourceSpan messagePartSpans p.1)
  .ok (TsExpr.call (.ident "$localize")
    (TsExpr.call helper [.arrayLiteral cookedLiterals, .arrayLiteral rawLiterals] false
      :: parts.2) false)

/-- The spliced expressions of a template literal, in splice order. -/
def TsTemplate.splices : TsTemplate → List TsExpr
  | .noSubstitution _ _ _ => []
  | .templateExpr _ _ _ spans => spans.map TsTemplateSpan.expression

/-- The cooked literal parts of a template literal, in order. -/
def TsTemplate.cookedParts : TsTemplate → List String
  | .noSubstitution cooked _ _ => [cooked]
  | .templateExpr headCooked _ _ spans => headCooked :: spans.map TsTemplateSpan.cooked

/-- The spliced expressions of a modern-tier (tagged template) lowering, looking
through any attached source-map range. -/
def taggedSplices : TsExpr → List TsExpr
  | .taggedTemplate _ template => template.splices
  | .withSrcRange _ e => taggedSplices e
  | _ => []

/-- The cooked literal parts of a modern-tier (tagged template) lowering. -/
def taggedCookedParts : TsExpr → List String
  | .taggedTemplate _ template => template.cookedParts
  | .withSrcRange _ e => taggedCookedParts e
  | _ => []

/-- The text of a (possibly range-carrying) string literal node. -/
def litText : TsExpr → String
  | .stringLiteral s => s
  | .withSrcRange _ e => litText e
  | _ => ""

/-- The spliced expressions of a legacy-tier (`$localize` function call)
lowering: the arguments after the template-object argument. -/
def callSplices : TsExpr → List TsExpr
  | .call _ (_ :: rest) _ => rest
  | .withSrcRange _ e => callSplices e
  | _ => []

/-- The cooked literal parts of a legacy-tier lowering: the texts of the first
array argument passed to the template-object helper. -/
def callCookedParts : TsExpr → List String
  | .call _ (.call _ (.arrayLiteral cookedLiterals :: _) _ :: _) _ =>
      cookedLiterals.map litText
  | .withSrcRange _ e => callCookedParts e
  | _ => []

/-- The spliced-expression list the modern tier produces from the translated
expressions: the translations in their original order, the j-th wrapped with the
j-th placeholder span. -/
def spliceList (placeholderSpans : List (Option ParseSourceSpan)) (j : Nat) :
    List TsExpr → List TsExpr
  | [] => []
  | r :: rs => withSpan r (getPlaceholderSourceSpan placeholderSpans j) ::
      spliceList placeholderSpans (j + 1) rs

/-- The serialized message parts `i, i+1, ..., i+n-1` that both lowering
strategies produce after the head part. -/
def serializedParts (messageParts placeholderNames : List String) (i : Nat) :
    Nat → List CookedRaw
  | 0 => []
  | n + 1 => serializeI18nTemplatePart messageParts placeholderNames i ::
      serializedParts messageParts placeholderNames (i + 1) n

/-- The declaration-list flags of a translated variable statement, if the
statement is one. -/
def stmtFlags (s : TsStmt) : Option TsVarFlags :=
  match s.node with
  | .variableStatement flags _ _ => some flags
  | _ => none

/-- Whether a translation result is an expression statement whose expression is
parenthesized at the top level. -/
def isParenExprStmt : Except TrError TsStmt → Bool
  | .ok (.mk (.expressionStatement (.paren _)) _) => true
  | _ => false

/-- The number of line breaks in a string. -/
def lineBreakCount (s : String) : Nat :=
  s.data.count '\n'

/-- Reinsert line breaks between character lines (the inverse of splitting). -/
def joinLines : List (List Char) → List Char
  | [] => []
  | [l] => l
  | l :: l2 :: ls => l ++ '\n' :: joinLines (l2 :: ls)

/-- Reinsert line breaks between text lines (the inverse of splitting). -/
def rebuildText : List String → String
  | [] => ""
  | [l] => l
  | l :: l2 :: ls => l ++ "\n" ++ rebuildText (l2 :: ls)

/-- A test fixture for witnesses: an import-resolution collaborator that reports
every symbol as ambient. -/
def ambientImports : String → String → ImportRes :=
  fun _ symbol => ⟨none, symbol⟩

/-- A test fixture for witnesses: an import-resolution collaborator that aliases
every module as `<module>_1` without renaming the symbol. -/
def aliasingImports : String → String → ImportRes :=
  fun moduleName symbol => ⟨some (moduleName ++ "_1"), symbol⟩

/-- Unfolding of the `visitWriteVarExpr` arm of the visitor. -/
theorem trExpr_writeVar (imports : String → String → ImportRes) (t : Nat)
    (ctx : Context) (name : String) (value : Expr) :
    trExpr imports t ctx (.writeVar name value) =
      (trExpr imports t ctx value).bind fun v =>
        .ok (if ctx.isStatement then TsExpr.binary (.ident name) .equalsToken v
             else .paren (.binary (.ident name) .equalsToken v)) := rfl

/-- Unfolding of the `visitWriteKeyExpr` arm of the visitor. -/
theorem trExpr_writeKey (imports : String → String → ImportRes) (t : Nat)
    (ctx : Context) (receiver index value : Expr) :
    trExpr imports t ctx (.writeKey receiver index value) =
      (trExpr imports t ctx.withExpressionMode receiver).bind fun r =>
      (trExpr imports t ctx.withExpressionMode index).bind fun i =>
      (trExpr imports t ctx.withExpressionMode value).bind fun v =>
        .ok (if ctx.isStatement then TsExpr.binary (.elementAccess r i) .equalsToken v
             else .paren (.binary (.elementAccess r i) .equalsToken v)) := rfl

/-- Unfolding of the `visitWritePropExpr` arm of the visitor. -/
theorem trExpr_writeProp (imports : String → String → ImportRes) (t : Nat)
    (ctx : Context) (receiver : Expr) (name : String) (value : Expr) :
    trExpr imports t ctx (.writeProp receiver name value) =
      (trExpr imports t ctx receiver).bind fun r =>
      (trExpr imports t ctx value).bind fun v =>
        .ok (.binary (.propertyAccess r name) .equalsToken v) := rfl

/-- Unfolding of the `visitConditionalExpr` arm of the visitor on a present
false case. -/
theorem trExpr_conditional_some (imports : String → String → ImportRes) (t : Nat)
    (ctx : Context) (condition trueCase f : Expr) :
    trExpr imports t ctx (.conditional condition trueCase (some f)) =
      (trExpr imports t ctx condition).bind fun c =>
      (trExpr imports t ctx trueCase).bind fun tc =>
      (trExpr imports t ctx f).bind fun fe =>
      .ok (.conditional (if isConditionalExpr condition then .paren c else c) tc fe) := rfl

/-- Unfolding of the `visitExternalExpr` arm of the visitor. -/
theorem trExpr_externalExpr (imports : String → String → ImportRes) (t : Nat)
    (ctx : Context) (moduleName name : Option String) :
    trExpr imports t ctx (.externalExpr moduleName name) =
      match name with
      | none => .error .importUnknownModuleOrSymbol
      | some n =>
        match moduleName with
        | some m =>
          (match (imports m n).moduleImport with
           | none => .ok (.ident (imports m n).symbol)
           | some moduleImport =>
               .ok (.propertyAccess (.ident moduleImport) (imports m n).symbol))
        | none => .ok (.ident n) := rfl

/-- Unfolding of the `visitCommaExpr` arm of the visitor. -/
theorem trExpr_comma (imports : String → String → ImportRes) (t : Nat)
    (ctx : Context) (parts : List Expr) :
    trExpr imports t ctx (.comma parts) = .error .methodNotImplemented := rfl

/-- Unfolding of the `visitUnaryOperatorExpr` arm of the visitor. -/
theorem trExpr_unaryOp (imports : String → String → ImportRes) (t : Nat)
    (ctx : Context) (op : Nat) (e : Expr) :
    trExpr imports t ctx (.unaryOp op e) =
      match UNARY_OPERATORS.lookup op with
      | none => .error (.unknownUnaryOperator op)
      | some token => (trExpr imports t ctx e).bind fun r =>
          .ok (.prefixUnary token r) := rfl

/-- Unfolding of the `visitBinaryOperatorExpr` arm of the visitor. -/
theorem trExpr_binaryOp (imports : String → String → ImportRes) (t : Nat)
    (ctx : Context) (op : Nat) (lhs rhs : Expr) :
    trExpr imports t ctx (.binaryOp op lhs rhs) =
      match BINARY_OPERATORS.lookup op with
      | none => .error (.unknownBinaryOperator op)
      | some token =>
          (trExpr imports t ctx lhs).bind fun l =>
          (trExpr imports t ctx rhs).bind fun r =>
          .ok (.binary l token r) := rfl

/-- Unfolding of the `visitExpressionStmt` arm of the visitor: the contained
expression is visited in statement mode. -/
theorem trStmt_expressionStatement (imports : String → String → ImportRes) (t : Nat)
    (ctx : Context) (e : Expr) (lc : Option (List LeadingComment)) :
    trStmt imports t ctx (.expressionStatement e lc) =
      (trExpr imports t ctx.withStatementMode e).bind fun r =>
        .ok (attachComments (.mk (.expressionStatement r) []) lc) := rfl

/-- Unfolding of the `visitReturnStmt` arm of the visitor: the contained
expression is visited in expression mode. -/
theorem trStmt_returnStatement (imports : String → String → ImportRes) (t : Nat)
    (ctx : Context) (e : Expr) (lc : Option (List LeadingComment)) :
    trStmt imports t ctx (.returnStatement e lc) =
      (trExpr imports t ctx.withExpressionMode e).bind fun r =>
        .ok (attachComments (.mk (.returnStatement r) []) lc) := rfl

/-- Unfolding of the `visitThrowStmt` arm of the visitor: the contained
expression is visited in expression mode. -/
theorem trStmt_throwStmt (imports : String → String → ImportRes) (t : Nat)
    (ctx : Context) (e : Expr) (lc : Option (List LeadingComment)) :
    trStmt imports t ctx (.throwStmt e lc) =
      (trExpr imports t ctx.withExpressionMode e).bind fun r =>
        .ok (attachComments (.mk (.throwStatement r) []) lc) := rfl

/-- Unfolding of the `visitDeclareVarStmt` arm without an initializer. -/
theorem trStmt_declareVar_none (imports : String → String → ImportRes) (t : Nat)
    (ctx : Context) (name : String) (mods : List StmtModifier)
    (lc : Option (List LeadingComment)) :
    trStmt imports t ctx (.declareVar name none mods lc) =
      .ok (attachComments (.mk (.variableStatement (declareVarFlags t mods) name none) [])
        lc) := rfl

/-- Unfolding of the `visitDeclareVarStmt` arm with an initializer, visited in
expression mode. -/
theorem trStmt_declareVar_some (imports : String → String → ImportRes) (t : Nat)
    (ctx : Context) (name : String) (v : Expr) (mods : List StmtModifier)
    (lc : Option (List LeadingComment)) :
    trStmt imports t ctx (.declareVar name (some v) mods lc) =
      (trExpr imports t ctx.withExpressionMode v).bind fun r =>
        .ok (attachComments
          (.mk (.variableStatement (declareVarFlags t mods) name (some r)) []) lc) := rfl

/-- Unfolding of the `visitDeclareClassStmt` arm of the visitor. -/
theorem trStmt_declareClass (imports : String → String → ImportRes) (t : Nat)
    (ctx : Context) (name : String) (lc : Option (List LeadingComment)) :
    trStmt imports t ctx (.declareClass name lc) =
      (if t < 2 then .error (.unsupportedDeclareClass name t)
       else .error .methodNotImplemented) := rfl

/-- Unfolding of the `visitTryCatchStmt` arm of the visitor. -/
theorem trStmt_tryCatch (imports : String → String → ImportRes) (t : Nat)
    (ctx : Context) (lc : Option (List LeadingComment)) :
    trStmt imports t ctx (.tryCatch lc) = .error .methodNotImplemented := rfl

/-- Unfolding of list translation on a cons cell. -/
theorem trExprs_cons (imports : String → String → ImportRes) (t : Nat)
    (ctx : Context) (e : Expr) (es : List Expr) :
    trExprs imports t ctx (e :: es) =
      (trExpr imports t ctx e).bind fun r =>
      (trExprs imports t ctx es).bind fun rs =>
      .ok (r :: rs) := rfl

/-- The `localizedString` arm of `trExpr` is `visitLocalizedString` (source lines
206-212): the capability tier alone selects which lowering strategy runs, and the
node's source span is attached to the result. -/
theorem trExpr_localizedString (imports : String → String → ImportRes)
    (scriptTarget : Nat) (ctx : Context) (metaBlock : String)
    (messageParts placeholderNames : List String) (expressions : List Expr)
    (messagePartSpans placeholderSpans : List (Option ParseSourceSpan))
    (sourceSpan : Option ParseSourceSpan) :
    trExpr imports scriptTarget ctx
        (.localizedString metaBlock messageParts placeholderNames expressions
          messagePartSpans placeholderSpans sourceSpan) =
      (if 2 ≤ scriptTarget then
        createLocalizedStringTaggedTemplate imports scriptTarget ctx metaBlock
          messageParts placeholderNames expressions messagePartSpans placeholderSpans
          sourceSpan
      else
        createLocalizedStringFunctionCall imports scriptTarget ctx metaBlock
          messageParts placeholderNames expressions messagePartSpans).bind
        (fun localized => .ok (withSpan localized sourceSpan)) := rfl

/-- Unfolding of the tagged-template span builder on the last remaining part. -/
theorem buildTemplateSpans_single (imports : String → String → ImportRes) (t : Nat)
    (ctx : Context) (messageParts placeholderNames : List String)
    (messagePartSpans placeholderSpans : List (Option ParseSourceSpan)) (i : Nat)
    (p : String) (e : Expr) (es : List Expr) :
    buildTemplateSpans imports t ctx messageParts placeholderNames messagePartSpans
        placeholderSpans i [p] (e :: es) =
      (trExpr imports t ctx e).bind fun re =>
        .ok [.mk (withSpan re (getPlaceholderSourceSpan placeholderSpans (i - 1)))
          (serializeI18nTemplatePart messageParts placeholderNames i).cooked
          (serializeI18nTemplatePart messageParts placeholderNames i).raw
          .tail (sourceMapRangeOf (getMessagePartSourceSpan messagePartSpans i))] := rfl

/-- Unfolding of the tagged-template span builder on a middle part. -/
theorem buildTemplateSpans_cons (imports : String → String → ImportRes) (t : Nat)
    (ctx : Context) (messageParts placeholderNames : List String)
    (messagePartSpans placeholderSpans : List (Option ParseSourceSpan)) (i : Nat)
    (p q : String) (rest : List String) (e : Expr) (es : List Expr) :
    buildTemplateSpans imports t ctx messageParts placeholderNames messagePartSpans
        placeholderSpans i (p :: q :: rest) (e :: es) =
      (trExpr imports t ctx e).bind fun re =>
      (buildTemplateSpans imports t ctx messageParts placeholderNames messagePartSpans
        placeholderSpans (i + 1) (q :: rest) es).bind fun spans =>
      .ok (.mk (withSpan re (getPlaceholderSourceSpan placeholderSpans (i - 1)))
        (serializeI18nTemplatePart messageParts placeholderNames i).cooked
        (serializeI18nTemplatePart messageParts placeholderNames i).raw
        .middle (sourceMapRangeOf (getMessagePartSourceSpan messagePartSpans i))
        :: spans) := rfl

/-- Unfolding of the function-call interleaving loop on a remaining part. -/
theorem buildFunctionCallParts_cons (imports : String → String → ImportRes) (t : Nat)
    (ctx : Context) (messageParts placeholderNames : List String) (i : Nat)
    (p : String) (rest : List String) (e : Expr) (es : List Expr) :
    buildFunctionCallParts imports t ctx messageParts placeholderNames i
        (p :: rest) (e :: es) =
      (trExpr imports t ctx e).bind fun re =>
      (buildFunctionCallParts imports t ctx messageParts placeholderNames (i + 1)
        rest es).bind fun prs =>
      .ok (serializeI18nTemplatePart messageParts placeholderNames i :: prs.1,
           re :: prs.2) := rfl

/-- Attaching comments never changes the statement node, only its trivia. -/
theorem attachComments_node (s : TsStmt) (lc : Option (List LeadingComment)) :
    (attachComments s lc).node = s.node := by
  cases lc with
  | none => rfl
  | some cs =>
    induction cs generalizing s with
    | nil => rfl
    | cons c cs ih =>
      have hstep : attachComments s (some (c :: cs)) =
          attachComments (s.addTrivia (commentTrivia c)) (some cs) := rfl
      rw [hstep, ih]
      cases s
      rfl

/-- C1: for every conditional expression whose condition is itself a conditional
expression, the translated inner conditional is wrapped in explicit grouping
parentheses before being used as the outer condition; a conditional nested in
any other position (true case, false case, or any non-condition position) is
rendered without the extra parentheses. -/
theorem conditional_condition_parenthesization
    (imports : String → String → ImportRes) (t : Nat) (ctx : Context)
    (condition trueCase falseCase : Expr) (c' t' f' : TsExpr)
    (hc : trExpr imports t ctx condition = .ok c')
    (ht : trExpr imports t ctx trueCase = .ok t')
    (hf : trExpr imports t ctx falseCase = .ok f') :
    ((∃ cc ct cf, condition = .conditional cc ct cf) →
      trExpr imports t ctx (.conditional condition trueCase (some falseCase)) =
        .ok (.conditional (.paren c') t' f')) ∧
    ((∀ cc ct cf, condition ≠ .conditional cc ct cf) →
      trExpr imports t ctx (.conditional condition trueCase (some falseCase)) =
        .ok (.conditional c' t' f')) := by
  constructor
  · rintro ⟨cc, ct, cf, rfl⟩
    rw [trExpr_conditional_some, hc, ht, hf]
    simp [Except.bind, isConditionalExpr]
  · intro hne
    have hcond : isConditionalExpr condition = false := by
      cases condition
      case conditional cc ct cf => exact absurd rfl (hne cc ct cf)
      all_goals rfl
    rw [trExpr_conditional_some, hc, ht, hf]
    simp [Except.bind, hcond]

/-- C1 witness: a concrete conditional nested as the condition of another is
parenthesized. -/
theorem conditional_condition_parenthesization_witness :
    trExpr ambientImports 2 ⟨false⟩
        (.conditional
          (.conditional (.readVar "a" none) (.readVar "b" none)
            (some (.readVar "c" none)))
          (.readVar "d" none) (some (.readVar "e" none))) =
      .ok (.conditional (.paren (.conditional (.ident "a") (.ident "b") (.ident "c")))
        (.ident "d") (.ident "e")) :=
  (conditional_condition_parenthesization ambientImports 2 ⟨false⟩
    (.conditional (.readVar "a" none) (.readVar "b" none) (some (.readVar "c" none)))
    (.readVar "d" none) (.readVar "e" none)
    (.conditional (.ident "a") (.ident "b") (.ident "c")) (.ident "d") (.ident "e")
    rfl rfl rfl).1 ⟨_, _, _, rfl⟩

/-- C2: a write-variable or write-by-key expression is wrapped in parentheses in
expression mode and unparenthesized in statement mode; a write-property
expression is never parenthesized, in either context. -/
theorem write_expression_parenthesization
    (imports : String → String → ImportRes) (t : Nat) (ctx : Context) :
    (∀ name value v', trExpr imports t ctx value = .ok v' →
      trExpr imports t ctx (.writeVar name value) =
        .ok (if ctx.isStatement then TsExpr.binary (.ident name) .equalsToken v'
             else .paren (.binary (.ident name) .equalsToken v'))) ∧
    (∀ receiver index value r' i' v',
      trExpr imports t ctx.withExpressionMode receiver = .ok r' →
      trExpr imports t ctx.withExpressionMode index = .ok i' →
      trExpr imports t ctx.withExpressionMode value = .ok v' →
      trExpr imports t ctx (.writeKey receiver index value) =
        .ok (if ctx.isStatement then TsExpr.binary (.elementAccess r' i') .equalsToken v'
             else .paren (.binary (.elementAccess r' i') .equalsToken v'))) ∧
    (∀ receiver name value r' v',
      trExpr imports t ctx receiver = .ok r' →
      trExpr imports t ctx value = .ok v' →
      trExpr imports t ctx (.writeProp receiver name value) =
        .ok (.binary (.propertyAccess r' name) .equalsToken v')) := by
  refine ⟨?_, ?_, ?_⟩
  · intro name value v' hv
    rw [trExpr_writeVar, hv]
    simp [Except.bind]
  · intro receiver index value r' i' v' hr hi hv
    rw [trExpr_writeKey, hr, hi, hv]
    simp [Except.bind]
  · intro receiver name value r' v' hr hv
    rw [trExpr_writeProp, hr, hv]
    simp [Except.bind]

/-- C2 witness: concrete writes in both modes. -/
theorem write_expression_parenthesization_witness :
    trExpr ambientImports 2 ⟨false⟩ (.writeVar "a" (.literal (.num 1) none)) =
      .ok (.paren (.binary (.ident "a") .equalsToken (.numericLiteral 1))) ∧
    trExpr ambientImports 2 ⟨true⟩ (.writeVar "a" (.literal (.num 1) none)) =
      .ok (.binary (.ident "a") .equalsToken (.numericLiteral 1)) ∧
    trExpr ambientImports 2 ⟨false⟩
        (.writeProp (.readVar "o" none) "p" (.literal (.num 2) none)) =
      .ok (.binary (.propertyAccess (.ident "o") "p") .equalsToken (.numericLiteral 2)) :=
  ⟨(write_expression_parenthesization ambientImports 2 ⟨false⟩).1 "a"
      (.literal (.num 1) none) (.numericLiteral 1) rfl,
   (write_expression_parenthesization ambientImports 2 ⟨true⟩).1 "a"
      (.literal (.num 1) none) (.numericLiteral 1) rfl,
   (write_expression_parenthesization ambientImports 2 ⟨false⟩).2.2 (.readVar "o" none)
      "p" (.literal (.num 2) none) (.ident "o") (.numericLiteral 2) rfl rfl⟩

/-- C4 counterexample: the claim predicts that an expression statement visits its
contained expression in expression mode, which would parenthesize a variable
write; the translator actually visits it in statement mode and leaves the
assignment unparenthesized, so the predicted output differs at this input. -/
theorem expression_statement_mode_counterexample :
    trStmt ambientImports 2 ⟨true⟩
        (.expressionStatement (.writeVar "a" (.literal (.num 1) none)) none) ≠
      (trExpr ambientImports 2 (Context.mk true).withExpressionMode
          (.writeVar "a" (.literal (.num 1) none))).bind
        (fun e' => .ok (attachComments (.mk (.expressionStatement e') []) none)) :=
  fun h => Bool.noConfusion (show false = true from congrArg isParenExprStmt h)

/-- C4 (amended): an expression statement visits its contained expression in
statement mode, while return and throw statements visit theirs in expression
mode; in all three cases the resulting statement wraps the translated expression
with no extra parenthesization, with comments attached afterward. -/
theorem contained_expression_visit_modes
    (imports : String → String → ImportRes) (t : Nat) (ctx : Context) :
    (∀ e e' lc, trExpr imports t ctx.withStatementMode e = .ok e' →
      trStmt imports t ctx (.expressionStatement e lc) =
        .ok (attachComments (.mk (.expressionStatement e') []) lc)) ∧
    (∀ e e' lc, trExpr imports t ctx.withExpressionMode e = .ok e' →
      trStmt imports t ctx (.returnStatement e lc) =
        .ok (attachComments (.mk (.returnStatement e') []) lc)) ∧
    (∀ e e' lc, trExpr imports t ctx.withExpressionMode e = .ok e' →
      trStmt imports t ctx (.throwStmt e lc) =
        .ok (attachComments (.mk (.throwStatement e') []) lc)) := by
  refine ⟨?_, ?_, ?_⟩
  · intro e e' lc he
    rw [trStmt_expressionStatement, he]
    simp [Except.bind]
  · intro e e' lc he
    rw [trStmt_returnStatement, he]
    simp [Except.bind]
  · intro e e' lc he
    rw [trStmt_throwStmt, he]
    simp [Except.bind]

/-- C4 witness: concrete expression, return and throw statements. -/
theorem contained_expression_visit_modes_witness :
    trStmt ambientImports 2 ⟨true⟩
        (.expressionStatement (.writeVar "a" (.literal (.num 1) none)) none) =
      .ok (.mk (.expressionStatement
        (.binary (.ident "a") .equalsToken (.numericLiteral 1))) []) ∧
    trStmt ambientImports 2 ⟨true⟩ (.returnStatement (.readVar "x" none) none) =
      .ok (.mk (.returnStatement (.ident "x")) []) ∧
    trStmt ambientImports 2 ⟨true⟩ (.throwStmt (.readVar "x" none) none) =
      .ok (.mk (.throwStatement (.ident "x")) []) :=
  ⟨(contained_expression_visit_modes ambientImports 2 ⟨true⟩).1
      (.writeVar "a" (.literal (.num 1) none))
      (.binary (.ident "a") .equalsToken (.numericLiteral 1)) none rfl,
   (contained_expression_visit_modes ambientImports 2 ⟨true⟩).2.1
      (.readVar "x" none) (.ident "x") none rfl,
   (contained_expression_visit_modes ambientImports 2 ⟨true⟩).2.2
      (.readVar "x" none) (.ident "x") none rfl⟩

/-- C5: a declare-variable statement yields a const binding at the modern tier
with the final modifier, a let binding at the modern tier without it, and a
plain var binding (no block scoping) below the modern tier regardless of the
modifier. -/
theorem declare_var_binding_kind
    (imports : String → String → ImportRes) (t : Nat) (ctx : Context)
    (name : String) (value : Option Expr) (mods : List StmtModifier)
    (lc : Option (List LeadingComment)) (st : TsStmt)
    (hst : trStmt imports t ctx (.declareVar name value mods lc) = .ok st) :
    (2 ≤ t → hasModifier mods .final = true → stmtFlags st = some .constFlag) ∧
    (2 ≤ t → hasModifier mods .final = false → stmtFlags st = some .letFlag) ∧
    (t < 2 → stmtFlags st = some .noneFlag) := by
  have hflags : stmtFlags st = some (declareVarFlags t mods) := by
    cases value with
    | none =>
        rw [trStmt_declareVar_none] at hst
        cases hst
        simp only [stmtFlags]
        rw [attachComments_node]
        rfl
    | some v =>
        rw [trStmt_declareVar_some] at hst
        cases h1 : trExpr imports t ctx.withExpressionMode v with
        | error e => rw [h1] at hst; simp [Except.bind] at hst
        | ok r =>
            rw [h1] at hst
            simp only [Except.bind] at hst
            cases hst
            simp only [stmtFlags]
            rw [attachComments_node]
            rfl
  refine ⟨?_, ?_, ?_⟩
  · intro h2 hfin
    rw [hflags]
    simp [declareVarFlags, Nat.not_lt.mpr h2, hfin]
  · intro h2 hfin
    rw [hflags]
    simp [declareVarFlags, Nat.not_lt.mpr h2, hfin]
  · intro h2
    rw [hflags]
    simp [declareVarFlags, h2]

/-- C5 witness: concrete declarations at both tiers. -/
theorem declare_var_binding_kind_witness :
    stmtFlags (.mk (.variableStatement .constFlag "v" none) []) = some .constFlag ∧
    stmtFlags (.mk (.variableStatement .letFlag "w" none) []) = some .letFlag ∧
    stmtFlags (.mk (.variableStatement .noneFlag "v" none) []) = some .noneFlag :=
  ⟨(declare_var_binding_kind ambientImports 2 ⟨true⟩ "v" none [.final] none
      (.mk (.variableStatement .constFlag "v" none) []) rfl).1 (by decide) rfl,
   (declare_var_binding_kind ambientImports 2 ⟨true⟩ "w" none [] none
      (.mk (.variableStatement .letFlag "w" none) []) rfl).2.1 (by decide) rfl,
   (declare_var_binding_kind ambientImports 1 ⟨true⟩ "v" none [.final] none
      (.mk (.variableStatement .noneFlag "v" none) []) rfl).2.2 (by decide)⟩

/-- C6: an external reference with a symbol name and a module name consults the
import-resolution collaborator, yielding a bare identifier of the resolved
symbol when no alias is returned and an alias-qualified property access
otherwise; with no module name the symbol is rendered as a bare identifier and
the result does not depend on the collaborator at all; a missing symbol name is
a fatal error. -/
theorem external_reference_resolution
    (imports : String → String → ImportRes) (t : Nat) (ctx : Context)
    (m n moduleAlias symbol : String) :
    (imports m n = ⟨none, symbol⟩ →
      trExpr imports t ctx (.externalExpr (some m) (some n)) = .ok (.ident symbol)) ∧
    (imports m n = ⟨some moduleAlias, symbol⟩ →
      trExpr imports t ctx (.externalExpr (some m) (some n)) =
        .ok (.propertyAccess (.ident moduleAlias) symbol)) ∧
    (trExpr imports t ctx (.externalExpr none (some n)) = .ok (.ident n)) ∧
    (∀ imports2 : String → String → ImportRes,
      trExpr imports t ctx (.externalExpr none (some n)) =
        trExpr imports2 t ctx (.externalExpr none (some n))) ∧
    (∀ moduleName, trExpr imports t ctx (.externalExpr moduleName none) =
      .error .importUnknownModuleOrSymbol) := by
  refine ⟨?_, ?_, ?_, ?_, ?_⟩
  · intro him
    rw [trExpr_externalExpr]
    simp [him]
  · intro him
    rw [trExpr_externalExpr]
    simp [him]
  · rw [trExpr_externalExpr]
  · intro imports2
    rw [trExpr_externalExpr, trExpr_externalExpr]
  · intro moduleName
    rw [trExpr_externalExpr]

/-- C6 witness: concrete resolutions through ambient and aliasing collaborators. -/
theorem external_reference_resolution_witness :
    trExpr ambientImports 2 ⟨false⟩ (.externalExpr (some "m") (some "s")) =
      .ok (.ident "s") ∧
    trExpr aliasingImports 2 ⟨false⟩ (.externalExpr (some "m") (some "s")) =
      .ok (.propertyAccess (.ident "m_1") "s") ∧
    trExpr aliasingImports 2 ⟨false⟩ (.externalExpr none (some "s")) =
      .ok (.ident "s") ∧
    trExpr aliasingImports 2 ⟨false⟩ (.externalExpr (some "m") none) =
      .error .importUnknownModuleOrSymbol :=
  ⟨(external_reference_resolution ambientImports 2 ⟨false⟩ "m" "s" "" "s").1 rfl,
   (external_reference_resolution aliasingImports 2 ⟨false⟩ "m" "s" "m_1" "s").2.1 rfl,
   (external_reference_resolution aliasingImports 2 ⟨false⟩ "m" "s" "" "s").2.2.1,
   (external_reference_resolution aliasingImports 2 ⟨false⟩ "m" "s" "" "s").2.2.2.2
     (some "m")⟩

/-- C7: visiting a declare-class statement always fails, with a message naming
the tier mismatch below the modern tier; try-catch statements and comma
expressions always fail with the not-implemented error; unary or binary
operators absent from the operator tables are fatal errors.  Every failure is an
error value, never a partial output node. -/
theorem unsupported_shapes_are_fatal
    (imports : String → String → ImportRes) (t : Nat) (ctx : Context)
    (className : String) (lc : Option (List LeadingComment)) (op : Nat)
    (e lhs rhs : Expr) (parts : List Expr) :
    (t < 2 → trStmt imports t ctx (.declareClass className lc) =
      .error (.unsupportedDeclareClass className t)) ∧
    (2 ≤ t → trStmt imports t ctx (.declareClass className lc) =
      .error .methodNotImplemented) ∧
    (trStmt imports t ctx (.tryCatch lc) = .error .methodNotImplemented) ∧
    (trExpr imports t ctx (.comma parts) = .error .methodNotImplemented) ∧
    (UNARY_OPERATORS.lookup op = none →
      trExpr imports t ctx (.unaryOp op e) = .error (.unknownUnaryOperator op)) ∧
    (BINARY_OPERATORS.lookup op = none →
      trExpr imports t ctx (.binaryOp op lhs rhs) =
        .error (.unknownBinaryOperator op)) := by
  refine ⟨?_, ?_, ?_, ?_, ?_, ?_⟩
  · intro h
    rw [trStmt_declareClass, if_pos h]
  · intro h
    rw [trStmt_declareClass, if_neg (Nat.not_lt.mpr h)]
  · exact trStmt_tryCatch imports t ctx lc
  · exact trExpr_comma imports t ctx parts
  · intro h
    rw [trExpr_unaryOp, h]
  · intro h
    rw [trExpr_binaryOp, h]

/-- C7 witness: concrete unsupported shapes at both tiers and an operator code
outside both tables. -/
theorem unsupported_shapes_are_fatal_witness :
    trStmt ambientImports 1 ⟨true⟩ (.declareClass "C" none) =
      .error (.unsupportedDeclareClass "C" 1) ∧
    trStmt ambientImports 2 ⟨true⟩ (.declareClass "C" none) =
      .error .methodNotImplemented ∧
    trExpr ambientImports 2 ⟨false⟩ (.unaryOp 99 (.readVar "x" none)) =
      .error (.unknownUnaryOperator 99) ∧
    trExpr ambientImports 2 ⟨false⟩
        (.binaryOp 99 (.readVar "x" none) (.readVar "y" none)) =
      .error (.unknownBinaryOperator 99) :=
  ⟨(unsupported_shapes_are_fatal ambientImports 1 ⟨true⟩ "C" none 99
      (.readVar "x" none) (.readVar "x" none) (.readVar "y" none) []).1 (by decide),
   (unsupported_shapes_are_fatal ambientImports 2 ⟨true⟩ "C" none 99
      (.readVar "x" none) (.readVar "x" none) (.readVar "y" none) []).2.1 (by decide),
   (unsupported_shapes_are_fatal ambientImports 2 ⟨false⟩ "C" none 99
      (.readVar "x" none) (.readVar "x" none) (.readVar "y" none) []).2.2.2.2.1
     (by decide),
   (unsupported_shapes_are_fatal ambientImports 2 ⟨false⟩ "C" none 99
      (.readVar "x" none) (.readVar "x" none) (.readVar "y" none) []).2.2.2.2.2
     (by decide)⟩

/-- C10: a write-variable expression handed directly to `translateExpression` is
parenthesized, because the traversal starts in expression mode, while the same
node inside an expression statement handed to `translateStatement` stays in
statement mode and is unparenthesized. -/
theorem translate_entry_point_modes
    (imports : String → String → ImportRes) (t : Nat) (name : String) (value : Expr)
    (vE vS : TsExpr) (lc : Option (List LeadingComment))
    (hE : trExpr imports t ⟨false⟩ value = .ok vE)
    (hS : trExpr imports t ⟨true⟩ value = .ok vS) :
    translateExpression (.writeVar name value) imports t =
      .ok (.paren (.binary (.ident name) .equalsToken vE)) ∧
    translateStatement (.expressionStatement (.writeVar name value) lc) imports t =
      .ok (attachComments (.mk (.expressionStatement
        (.binary (.ident name) .equalsToken vS)) []) lc) := by
  constructor
  · show trExpr imports t ⟨false⟩ (.writeVar name value) = _
    rw [trExpr_writeVar, hE]
    simp [Except.bind]
  · show trStmt imports t ⟨true⟩ (.expressionStatement (.writeVar name value) lc) = _
    rw [trStmt_expressionStatement]
    rw [show (Context.mk true).withStatementMode = ⟨true⟩ from rfl]
    rw [trExpr_writeVar, hS]
    simp [Except.bind]

/-- Splitting never produces an empty list of lines. -/
theorem splitNewlineChars_ne_nil (l : List Char) : splitNewlineChars l ≠ [] := by
  cases l with
  | nil => exact fun h => List.noConfusion h
  | cons c cs =>
    simp only [splitNewlineChars]
    by_cases h : c = '\n'
    · simp [h]
    · simp only [if_neg h]
      cases splitNewlineChars cs <;> simp

/-- Splitting a character sequence yields one more line than it has line breaks. -/
theorem length_splitNewlineChars (l : List Char) :
    (splitNewlineChars l).length = l.count '\n' + 1 := by
  induction l with
  | nil => rfl
  | cons c cs ih =>
    simp only [splitNewlineChars]
    by_cases h : c = '\n'
    · subst h
      simp [List.count_cons, ih]
    · simp only [if_neg h]
      cases hs : splitNewlineChars cs with
      | nil => exact absurd hs (splitNewlineChars_ne_nil cs)
      | cons a as =>
        rw [hs] at ih
        simp only [List.length_cons] at ih ⊢
        simp [List.count_cons, h]
        omega

/-- Rejoining the split lines with line breaks restores the original characters. -/
theorem joinLines_splitNewlineChars (l : List Char) :
    joinLines (splitNewlineChars l) = l := by
  induction l with
  | nil => rfl
  | cons c cs ih =>
    simp only [splitNewlineChars]
    by_cases h : c = '\n'
    · subst h
      simp only [if_pos rfl]
      cases hs : splitNewlineChars cs with
      | nil => exact absurd hs (splitNewlineChars_ne_nil cs)
      | cons a as =>
        rw [hs] at ih
        simp [joinLines, ih]
    · simp only [if_neg h]
      cases hs : splitNewlineChars cs with
      | nil => exact absurd hs (splitNewlineChars_ne_nil cs)
      | cons a as =>
        rw [hs] at ih
        cases as with
        | nil =>
          simp only [joinLines] at ih ⊢
          rw [ih]
        | cons b bs =>
          simp only [joinLines, List.cons_append] at ih ⊢
          rw [ih]

/-- Appending strings appends their character data. -/
theorem stringMk_append (a b : List Char) :
    (⟨a⟩ : String) ++ (⟨b⟩ : String) = ⟨a ++ b⟩ := rfl

/-- Rebuilding text lines agrees with rejoining their character sequences. -/
theorem rebuildText_map_mk : ∀ ls : List (List Char),
    rebuildText (ls.map fun l => (⟨l⟩ : String)) = ⟨joinLines ls⟩
  | [] => rfl
  | [_l] => rfl
  | l :: l2 :: ls => by
      have ih := rebuildText_map_mk (l2 :: ls)
      simp only [List.map, rebuildText, joinLines] at ih ⊢
      rw [ih, show ("\n" : String) = ⟨['\n']⟩ from rfl, stringMk_append, stringMk_append,
        List.append_assoc]
      rfl

/-- C8: a block comment attaches as a single trivia unit with its exact text; a
single-line comment with n line breaks attaches as exactly n+1 single-line
trivia units, in original order, all with the comment's trailing-newline flag,
and the units together rebuild the original text; the comments of a list attach
in order, and an absent list attaches nothing. -/
theorem comment_attachment_trivia (comment : LeadingComment) :
    (comment.multiline = true →
      commentTrivia comment = [⟨true, comment.text, comment.trailingNewline⟩]) ∧
    (comment.multiline = false →
      (commentTrivia comment).length = lineBreakCount comment.text + 1 ∧
      rebuildText ((commentTrivia comment).map Trivia.text) = comment.text ∧
      (∀ u ∈ commentTrivia comment, u.multiline = false ∧
        u.trailingNewline = comment.trailingNewline)) ∧
    (∀ statement comments, attachComments statement (some comments) =
      statement.addTrivia ((comments.map commentTrivia).flatten)) ∧
    (∀ statement, attachComments statement none = statement) := by
  refine ⟨?_, ?_, ?_, fun _ => rfl⟩
  · intro h
    simp [commentTrivia, h, LeadingComment.render]
  · intro h
    refine ⟨?_, ?_, ?_⟩
    · simp [commentTrivia, h, splitNewline, lineBreakCount, length_splitNewlineChars]
    · have htext : ((commentTrivia comment).map Trivia.text) =
          splitNewline comment.text := by
        simp only [commentTrivia, h, if_neg Bool.false_ne_true, List.map_map]
        rw [show (Trivia.text ∘ fun line =>
            (⟨false, line, comment.trailingNewline⟩ : Trivia)) = id from rfl,
          List.map_id]
      rw [htext]
      show rebuildText ((splitNewlineChars comment.text.data).map fun l =>
        (⟨l⟩ : String)) = comment.text
      rw [rebuildText_map_mk, joinLines_splitNewlineChars]
    · intro u hu
      simp [commentTrivia, h, splitNewline] at hu
      obtain ⟨l, _, rfl⟩ := hu
      exact ⟨rfl, rfl⟩
  · intro statement comments
    induction comments generalizing statement with
    | nil =>
      cases statement
      simp [attachComments, TsStmt.addTrivia]
    | cons c cs ih =>
      have hstep : attachComments statement (some (c :: cs)) =
          attachComments (statement.addTrivia (commentTrivia c)) (some cs) := rfl
      rw [hstep, ih]
      cases statement
      simp [TsStmt.addTrivia]

/-- C8 witness: a concrete block comment and a concrete two-line comment. -/
theorem comment_attachment_trivia_witness :
    commentTrivia ⟨"block text", true, false⟩ = [⟨true, "block text", false⟩] ∧
    (commentTrivia ⟨"a\nb", false, true⟩).length = 2 ∧
    rebuildText ((commentTrivia ⟨"a\nb", false, true⟩).map Trivia.text) = "a\nb" :=
  ⟨(comment_attachment_trivia ⟨"block text", true, false⟩).1 rfl,
   ((comment_attachment_trivia ⟨"a\nb", false, true⟩).2.1 rfl).1,
   ((comment_attachment_trivia ⟨"a\nb", false, true⟩).2.1 rfl).2.1⟩

/-- A lookup hit is preserved by appending entries on the right. -/
theorem lookup_append_of_some (l l' : List (String × SourceMapSource)) (k : String)
    (v : SourceMapSource) (h : l.lookup k = some v) : (l ++ l').lookup k = some v := by
  induction l with
  | nil => simp [List.lookup] at h
  | cons p ps ih =>
    obtain ⟨a, b⟩ := p
    simp only [List.lookup, List.cons_append] at h ⊢
    by_cases hk : k == a
    · simp [hk] at h ⊢
      exact h
    · simp only [hk] at h ⊢
      exact ih h

/-- A lookup miss means the key is absent. -/
theorem not_mem_keys_of_lookup_none (l : List (String × SourceMapSource)) (k : String)
    (h : l.lookup k = none) : k ∉ l.map Prod.fst := by
  induction l with
  | nil => simp
  | cons p ps ih =>
    obtain ⟨a, b⟩ := p
    simp only [List.lookup] at h
    by_cases hk : k == a
    · simp [hk] at h
    · simp only [hk] at h
      simp only [List.map, List.mem_cons]
      rintro (rfl | hmem)
      · exact hk (by simp)
      · exact ih h hmem

/-- C9 counterexample: the IR node of this span carries a source span, yet no
byte-offset range is attached to its output node, because the span's file URL is
the empty string (the `if (url)` truthiness test in `setSourceMapRange`). -/
theorem span_with_empty_url_unmapped :
    setSourceMapRange [] (some ⟨⟨"", "full text"⟩, 0, 4⟩) = ([], none) := rfl

/-- C9 (amended): within one run the descriptor cache holds exactly one
descriptor per distinct non-empty referenced file URL, created on the first
reference and reused (never evicted) for every later reference; a node with a
span whose URL is non-empty gets a start/end byte-offset range tied to that
descriptor; nodes without a span, or whose span's file URL is empty, remain
unmapped and leave the cache untouched. -/
theorem source_map_descriptor_cache (cache : List (String × SourceMapSource))
    (span : ParseSourceSpan) (url : String) (src : SourceMapSource) :
    (setSourceMapRange cache none = (cache, none)) ∧
    (span.file.url = "" → setSourceMapRange cache (some span) = (cache, none)) ∧
    (span.file.url ≠ "" → cache.lookup span.file.url = none →
      setSourceMapRange cache (some span) =
        (cache ++ [(span.file.url, ⟨span.file.url, span.file.content⟩)],
         some ⟨span.startOffset, span.endOffset,
           ⟨span.file.url, span.file.content⟩⟩)) ∧
    (span.file.url ≠ "" → cache.lookup span.file.url = some src →
      setSourceMapRange cache (some span) =
        (cache, some ⟨span.startOffset, span.endOffset, src⟩)) ∧
    (∀ spanOpt, cache.lookup url = some src →
      (setSourceMapRange cache spanOpt).1.lookup url = some src) ∧
    (∀ spanOpt, (cache.map Prod.fst).Nodup →
      ((setSourceMapRange cache spanOpt).1.map Prod.fst).Nodup) := by
  refine ⟨rfl, ?_, ?_, ?_, ?_, ?_⟩
  · intro h
    simp [setSourceMapRange, h]
  · intro h hmiss
    simp [setSourceMapRange, h, hmiss]
  · intro h hhit
    simp [setSourceMapRange, h, hhit]
  · intro spanOpt hhit
    cases spanOpt with
    | none => exact hhit
    | some sp =>
      by_cases hu : sp.file.url = ""
      · simp [setSourceMapRange, hu, hhit]
      · cases hl : cache.lookup sp.file.url with
        | some s => simp [setSourceMapRange, hu, hl, hhit]
        | none =>
          simp only [setSourceMapRange, hu, hl, if_neg hu]
          exact lookup_append_of_some cache _ url src hhit
  · intro spanOpt hnd
    cases spanOpt with
    | none => exact hnd
    | some sp =>
      by_cases hu : sp.file.url = ""
      · simpa [setSourceMapRange, hu] using hnd
      · cases hl : cache.lookup sp.file.url with
        | some s => simpa [setSourceMapRange, hu, hl] using hnd
        | none =>
          have hnot := not_mem_keys_of_lookup_none cache sp.file.url hl
          simp only [setSourceMapRange, hu, hl, if_neg hu]
          simp [List.nodup_append, hnd, hnot]

/-- C9 witness: a first reference creates the descriptor, a second reference to
the same URL reuses it without growing the cache. -/
theorem source_map_descriptor_cache_witness :
    setSourceMapRange [] (some ⟨⟨"u", "c"⟩, 0, 3⟩) =
      ([("u", ⟨"u", "c"⟩)], some ⟨0, 3, ⟨"u", "c"⟩⟩) ∧
    setSourceMapRange [("u", ⟨"u", "c"⟩)] (some ⟨⟨"u", "c"⟩, 5, 9⟩) =
      ([("u", ⟨"u", "c"⟩)], some ⟨5, 9, ⟨"u", "c"⟩⟩) :=
  ⟨(source_map_descriptor_cache [] ⟨⟨"u", "c"⟩, 0, 3⟩ "u" ⟨"u", "c"⟩).2.2.1
     (by decide) rfl,
   (source_map_descriptor_cache [("u", ⟨"u", "c"⟩)] ⟨⟨"u", "c"⟩, 5, 9⟩ "u"
     ⟨"u", "c"⟩).2.2.2.1 (by decide) rfl⟩

/-- Decomposition of a successful list translation at a cons cell. -/
theorem trExprs_ok_cases (imports : String → String → ImportRes) (t : Nat)
    (ctx : Context) (e : Expr) (es : List Expr) (rs : List TsExpr)
    (h : trExprs imports t ctx (e :: es) = .ok rs) :
    ∃ r rs', trExpr imports t ctx e = .ok r ∧ trExprs imports t ctx es = .ok rs' ∧
      rs = r :: rs' := by
  rw [trExprs_cons] at h
  cases h1 : trExpr imports t ctx e with
  | error err => rw [h1] at h; simp [Except.bind] at h
  | ok r =>
    rw [h1] at h
    cases h2 : trExprs imports t ctx es with
    | error err => rw [h2] at h; simp [Except.bind] at h
    | ok rs' =>
      rw [h2] at h
      simp [Except.bind] at h
      exact ⟨r, rs', rfl, rfl, h.symm⟩

/-- A successful list translation preserves the list length. -/
theorem trExprs_ok_length (imports : String → String → ImportRes) (t : Nat)
    (ctx : Context) :
    ∀ (es : List Expr) (rs : List TsExpr),
      trExprs imports t ctx es = .ok rs → rs.length = es.length := by
  intro es
  induction es with
  | nil =>
    intro rs h
    rw [show trExprs imports t ctx [] = .ok [] from rfl] at h
    cases h
    rfl
  | cons e es' ih =>
    intro rs h
    obtain ⟨r, rs', _, h2, rfl⟩ := trExprs_ok_cases _ _ _ _ _ _ h
    simp [ih rs' h2]

/-- The expected modern-tier splice list has one entry per translated expression. -/
theorem spliceList_length (phSpans : List (Option ParseSourceSpan)) :
    ∀ (rs : List TsExpr) (j : Nat), (spliceList phSpans j rs).length = rs.length
  | [], _ => rfl
  | r :: rs, j => by simp [spliceList, spliceList_length phSpans rs (j + 1)]

/-- Attaching a source span does not change which expressions a tagged template
splices. -/
theorem taggedSplices_withSpan (e : TsExpr) (sp : Option ParseSourceSpan) :
    taggedSplices (withSpan e sp) = taggedSplices e := by
  cases h : sourceMapRangeOf sp with
  | none => simp [withSpan, h]
  | some r => cases e <;> simp [withSpan, h, taggedSplices]

/-- Attaching a source span does not change a tagged template's literal parts. -/
theorem taggedCookedParts_withSpan (e : TsExpr) (sp : Option ParseSourceSpan) :
    taggedCookedParts (withSpan e sp) = taggedCookedParts e := by
  cases h : sourceMapRangeOf sp with
  | none => simp [withSpan, h]
  | some r => cases e <;> simp [withSpan, h, taggedCookedParts]

/-- The text of a created literal is the text it was created from. -/
theorem litText_createLiteral (text : String) (sp : Option ParseSourceSpan) :
    litText (createLiteral text sp) = text := by
  unfold createLiteral
  cases h : sourceMapRangeOf sp with
  | none => simp [withSpan, h, litText]
  | some r => simp [withSpan, h, litText]

/-- The cooked literal array of the legacy tier reads back the cooked texts. -/
theorem map_litText_enumFrom (pSpans : List (Option ParseSourceSpan)) :
    ∀ (msgParts : List CookedRaw) (n : Nat),
      ((List.enumFrom n msgParts).map fun p =>
          createLiteral p.2.cooked (getMessagePartSourceSpan pSpans p.1)).map litText =
        msgParts.map CookedRaw.cooked := by
  intro msgParts
  induction msgParts with
  | nil => intro n; rfl
  | cons a as ih =>
    intro n
    simp [List.enumFrom, litText_createLiteral, ih (n + 1)]

/-- Characterization of the tagged-template span builder on well-formed input:
one span per remaining message part, splicing the translated expressions in
order (each wrapped with its placeholder span) against the serialized parts. -/
theorem buildTemplateSpans_ok (imports : String → String → ImportRes) (t : Nat)
    (ctx : Context) (parts phNames : List String)
    (pSpans phSpans : List (Option ParseSourceSpan)) :
    ∀ (restParts : List String) (es : List Expr) (rs : List TsExpr) (i : Nat),
      1 ≤ i → restParts.length = es.length → restParts ≠ [] →
      trExprs imports t ctx es = .ok rs →
      ∃ spans,
        buildTemplateSpans imports t ctx parts phNames pSpans phSpans i restParts es =
          .ok spans ∧
        spans.map TsTemplateSpan.expression = spliceList phSpans (i - 1) rs ∧
        spans.map TsTemplateSpan.cooked =
          (serializedParts parts phNames i restParts.length).map CookedRaw.cooked := by
  intro restParts
  induction restParts with
  | nil => intro es rs i _ _ hne _; exact absurd rfl hne
  | cons p rest ih =>
    intro es rs i hi hlen _ hok
    cases es with
    | nil => simp at hlen
    | cons e es' =>
      obtain ⟨r, rs', h1, h2, rfl⟩ := trExprs_ok_cases _ _ _ _ _ _ hok
      cases rest with
      | nil =>
        cases es' with
        | cons _ _ => simp at hlen
        | nil =>
          have hrs' : rs' = [] := by
            rw [show trExprs imports t ctx [] = .ok [] from rfl] at h2
            cases h2
            rfl
          subst hrs'
          refine ⟨[TsTemplateSpan.mk
              (withSpan r (getPlaceholderSourceSpan phSpans (i - 1)))
              (serializeI18nTemplatePart parts phNames i).cooked
              (serializeI18nTemplatePart parts phNames i).raw .tail
              (sourceMapRangeOf (getMessagePartSourceSpan pSpans i))], ?_, ?_, ?_⟩
          · rw [buildTemplateSpans_single, h1]
            simp [Except.bind]
          · simp [TsTemplateSpan.expression, spliceList]
          · simp [TsTemplateSpan.cooked, serializedParts]
      | cons q rest' =>
        have hlen' : (q :: rest').length = es'.length := by simpa using hlen
        obtain ⟨spans, hbs, hexprs, hcooked⟩ :=
          ih es' rs' (i + 1) (by omega) hlen' (by simp) h2
        refine ⟨TsTemplateSpan.mk
            (withSpan r (getPlaceholderSourceSpan phSpans (i - 1)))
            (serializeI18nTemplatePart parts phNames i).cooked
            (serializeI18nTemplatePart parts phNames i).raw .middle
            (sourceMapRangeOf (getMessagePartSourceSpan pSpans i)) :: spans, ?_, ?_, ?_⟩
        · rw [buildTemplateSpans_cons, h1, hbs]
          simp [Except.bind]
        · simp only [List.map, TsTemplateSpan.expression, spliceList]
          rw [hexprs]
          have : i + 1 - 1 = i - 1 + 1 := by omega
          rw [this]
        · simp only [List.map, TsTemplateSpan.cooked, List.length_cons, serializedParts]
          rw [hcooked]
          simp [serializedParts]

/-- Characterization of the legacy-tier interleaving loop on well-formed input:
the serialized parts and the translated expressions, both in original order. -/
theorem buildFunctionCallParts_ok (imports : String → String → ImportRes) (t : Nat)
    (ctx : Context) (parts phNames : List String) :
    ∀ (restParts : List String) (es : List Expr) (rs : List TsExpr) (i : Nat),
      restParts.length = es.length →
      trExprs imports t ctx es = .ok rs →
      buildFunctionCallParts imports t ctx parts phNames i restParts es =
        .ok (serializedParts parts phNames i restParts.length, rs) := by
  intro restParts
  induction restParts with
  | nil =>
    intro es rs i hlen hok
    cases es with
    | cons _ _ => simp at hlen
    | nil =>
      rw [show trExprs imports t ctx [] = .ok [] from rfl] at hok
      cases hok
      rfl
  | cons p rest ih =>
    intro es rs i hlen hok
    cases es with
    | nil => simp at hlen
    | cons e es' =>
      obtain ⟨r, rs', h1, h2, rfl⟩ := trExprs_ok_cases _ _ _ _ _ _ hok
      have hlen' : rest.length = es'.length := by simpa using hlen
      rw [buildFunctionCallParts_cons, h1, ih es' rs' (i + 1) hlen' h2]
      simp [Except.bind, serializedParts]

/-- C3: for a localized-string node with k expressions and k+1 message parts,
the modern-tier tagged template and the legacy-tier `$localize` function call
both splice exactly the k translated expressions in the original order of the
IR's expression list, the cooked literal text (including the colon-delimited
placeholder metadata) is identical across the two tiers, and the capability tier
(at least ES2015 or not) is the only variable deciding which strategy
`visitLocalizedString` runs. -/
theorem localized_string_lowering_equivalence
    (imports : String → String → ImportRes) (ctx : Context)
    (metaBlock : String) (messageParts placeholderNames : List String)
    (expressions : List Expr)
    (messagePartSpans placeholderSpans : List (Option ParseSourceSpan))
    (sourceSpan : Option ParseSourceSpan) (k tModern tLegacy : Nat)
    (rsModern rsLegacy : List TsExpr)
    (hk : expressions.length = k)
    (hparts : messageParts.length = k + 1)
    (hModern : 2 ≤ tModern) (hLegacy : tLegacy < 2)
    (hrsM : trExprs imports tModern ctx expressions = .ok rsModern)
    (hrsL : trExprs imports tLegacy ctx expressions = .ok rsLegacy) :
    ∃ tagged fnCall : TsExpr,
      createLocalizedStringTaggedTemplate imports tModern ctx metaBlock messageParts
          placeholderNames expressions messagePartSpans placeholderSpans sourceSpan =
        .ok tagged ∧
      createLocalizedStringFunctionCall imports tLegacy ctx metaBlock messageParts
          placeholderNames expressions messagePartSpans = .ok fnCall ∧
      taggedSplices tagged = spliceList placeholderSpans 0 rsModern ∧
      (taggedSplices tagged).length = k ∧
      callSplices fnCall = rsLegacy ∧
      rsLegacy.length = k ∧
      taggedCookedParts tagged =
        (serializeI18nHead metaBlock messageParts ::
          serializedParts messageParts placeholderNames 1 k).map CookedRaw.cooked ∧
      callCookedParts fnCall = taggedCookedParts tagged ∧
      trExpr imports tModern ctx (.localizedString metaBlock messageParts
          placeholderNames expressions messagePartSpans placeholderSpans sourceSpan) =
        .ok (withSpan tagged sourceSpan) ∧
      trExpr imports tLegacy ctx (.localizedString metaBlock messageParts
          placeholderNames expressions messagePartSpans placeholderSpans sourceSpan) =
        .ok (withSpan fnCall sourceSpan) := by
  have hlenM : rsModern.length = k := (trExprs_ok_length _ _ _ _ _ hrsM).trans hk
  have hlenL : rsLegacy.length = k := (trExprs_ok_length _ _ _ _ _ hrsL).trans hk
  have hdropLen : (messageParts.drop 1).length = k := by
    simp [List.length_drop, hparts]
  cases k with
  | zero =>
    have hexprs_nil : expressions = [] := List.length_eq_zero.mp hk
    subst hexprs_nil
    have hM : rsModern = [] := List.length_eq_zero.mp hlenM
    have hL : rsLegacy = [] := List.length_eq_zero.mp hlenL
    subst hM
    subst hL
    have hdrop : messageParts.drop 1 = [] := List.eq_nil_of_length_eq_zero hdropLen
    have h1 : messageParts.length = 1 := hparts
    have htag : createLocalizedStringTaggedTemplate imports tModern ctx metaBlock
        messageParts placeholderNames [] messagePartSpans placeholderSpans sourceSpan =
        .ok (withSpan (TsExpr.taggedTemplate (.ident "$localize")
          (.noSubstitution (serializeI18nHead metaBlock messageParts).cooked
            (serializeI18nHead metaBlock messageParts).raw
            (sourceMapRangeOf (getMessagePartSourceSpan messagePartSpans 0))))
          sourceSpan) := by
      unfold createLocalizedStringTaggedTemplate
      rw [if_pos h1]
      rfl
    have hfn : createLocalizedStringFunctionCall imports tLegacy ctx metaBlock
        messageParts placeholderNames [] messagePartSpans =
        .ok (TsExpr.call (.ident "$localize")
          [TsExpr.call (makeTemplateObjectHelper imports)
            [.arrayLiteral [createLiteral
                (serializeI18nHead metaBlock messageParts).cooked
                (getMessagePartSourceSpan messagePartSpans 0)],
             .arrayLiteral [createLiteral
                (serializeI18nHead metaBlock messageParts).raw
                (getMessagePartSourceSpan messagePartSpans 0)]] false] false) := by
      unfold createLocalizedStringFunctionCall
      rw [hdrop]
      rw [show buildFunctionCallParts imports tLegacy ctx messageParts
        placeholderNames 1 [] [] = .ok ([], []) from rfl]
      rfl
    refine ⟨_, _, htag, hfn, ?_, ?_, ?_, ?_, ?_, ?_, ?_, ?_⟩
    · rw [taggedSplices_withSpan]
      simp [taggedSplices, TsTemplate.splices, spliceList]
    · rw [taggedSplices_withSpan]
      simp [taggedSplices, TsTemplate.splices]
    · simp [callSplices]
    · rfl
    · rw [taggedCookedParts_withSpan]
      simp [taggedCookedParts, TsTemplate.cookedParts, serializedParts]
    · rw [taggedCookedParts_withSpan]
      simp [callCookedParts, taggedCookedParts, TsTemplate.cookedParts,
        litText_createLiteral, serializedParts]
    · rw [trExpr_localizedString, if_pos hModern, htag]
      simp [Except.bind]
    · rw [trExpr_localizedString, if_neg (by omega : ¬ 2 ≤ tLegacy), hfn]
      simp [Except.bind]
  | succ k' =>
    have hne1 : ¬ (messageParts.length = 1) := by omega
    have hne : messageParts.drop 1 ≠ [] := by
      intro hnil
      rw [hnil] at hdropLen
      simp at hdropLen
    obtain ⟨spans, hbts, hexprs, hcooked⟩ :=
      buildTemplateSpans_ok imports tModern ctx messageParts placeholderNames
        messagePartSpans placeholderSpans (messageParts.drop 1) expressions rsModern 1
        (by omega) (by rw [hdropLen, hk]) hne hrsM
    have htag : createLocalizedStringTaggedTemplate imports tModern ctx metaBlock
        messageParts placeholderNames expressions messagePartSpans placeholderSpans
        sourceSpan =
        .ok (withSpan (TsExpr.taggedTemplate (.ident "$localize")
          (.templateExpr (serializeI18nHead metaBlock messageParts).cooked
            (serializeI18nHead metaBlock messageParts).raw
            (sourceMapRangeOf (getMessagePartSourceSpan messagePartSpans 0)) spans))
          sourceSpan) := by
      unfold createLocalizedStringTaggedTemplate
      rw [if_neg hne1, hbts]
      rfl
    have hbfc := buildFunctionCallParts_ok imports tLegacy ctx messageParts
      placeholderNames (messageParts.drop 1) expressions rsLegacy 1
      (by rw [hdropLen, hk]) hrsL
    have hfn : createLocalizedStringFunctionCall imports tLegacy ctx metaBlock
        messageParts placeholderNames expressions messagePartSpans =
        .ok (TsExpr.call (.ident "$localize")
          (TsExpr.call (makeTemplateObjectHelper imports)
            [.arrayLiteral ((serializeI18nHead metaBlock messageParts ::
                serializedParts messageParts placeholderNames 1
                  (messageParts.drop 1).length).enum.map fun p =>
                createLiteral p.2.cooked (getMessagePartSourceSpan messagePartSpans p.1)),
             .arrayLiteral ((serializeI18nHead metaBlock messageParts ::
                serializedParts messageParts placeholderNames 1
                  (messageParts.drop 1).length).enum.map fun p =>
                createLiteral p.2.raw (getMessagePartSourceSpan messagePartSpans p.1))]
            false :: rsLegacy) false) := by
      unfold createLocalizedStringFunctionCall
      rw [hbfc]
      rfl
    refine ⟨_, _, htag, hfn, ?_, ?_, ?_, ?_, ?_, ?_, ?_, ?_⟩
    · rw [taggedSplices_withSpan]
      simpa [taggedSplices, TsTemplate.splices] using hexprs
    · rw [taggedSplices_withSpan]
      simp only [taggedSplices, TsTemplate.splices]
      rw [hexprs, spliceList_length, hlenM]
    · simp [callSplices]
    · exact hlenL
    · rw [taggedCookedParts_withSpan]
      simp only [taggedCookedParts, TsTemplate.cookedParts]
      rw [hcooked, hdropLen]
      simp
    · rw [taggedCookedParts_withSpan]
      simp only [callCookedParts, taggedCookedParts, TsTemplate.cookedParts]
      rw [show ∀ l : List CookedRaw, l.enum = List.enumFrom 0 l from fun _ => rfl,
        map_litText_enumFrom]
      rw [hcooked, hdropLen]
      simp
    · rw [trExpr_localizedString, if_pos hModern, htag]
      simp [Except.bind]
    · rw [trExpr_localizedString, if_neg (by omega : ¬ 2 ≤ tLegacy), hfn]
      simp [Except.bind]

/-- C3 witness: a concrete localized string with one expression, lowered at both
tiers through an aliasing collaborator. -/
theorem localized_string_lowering_equivalence_witness :
    ∃ tagged fnCall : TsExpr,
      createLocalizedStringTaggedTemplate aliasingImports 2 ⟨false⟩ "meta"
          ["a", "b"] ["PH"] [.readVar "x" none] [none, none] [none] none =
        .ok tagged ∧
      createLocalizedStringFunctionCall aliasingImports 1 ⟨false⟩ "meta"
          ["a", "b"] ["PH"] [.readVar "x" none] [none, none] = .ok fnCall ∧
      taggedSplices tagged = spliceList [none] 0 [.ident "x"] ∧
      (taggedSplices tagged).length = 1 ∧
      callSplices fnCall = [.ident "x"] ∧
      ([TsExpr.ident "x"] : List TsExpr).length = 1 ∧
      taggedCookedParts tagged =
        (serializeI18nHead "meta" ["a", "b"] ::
          serializedParts ["a", "b"] ["PH"] 1 1).map CookedRaw.cooked ∧
      callCookedParts fnCall = taggedCookedParts tagged ∧
      trExpr aliasingImports 2 ⟨false⟩ (.localizedString "meta" ["a", "b"] ["PH"]
          [.readVar "x" none] [none, none] [none] none) =
        .ok (withSpan tagged none) ∧
      trExpr aliasingImports 1 ⟨false⟩ (.localizedString "meta" ["a", "b"] ["PH"]
          [.readVar "x" none] [none, none] [none] none) =
        .ok (withSpan fnCall none) :=
  localized_string_lowering_equivalence aliasingImports ⟨false⟩ "meta" ["a", "b"]
    ["PH"] [.readVar "x" none] [none, none] [none] none 1 2 1 [.ident "x"]
    [.ident "x"] rfl rfl (by decide) (by decide) rfl rfl

/-- C10 witness: a concrete write through both entry points. -/
theorem translate_entry_point_modes_witness :
    translateExpression (.writeVar "a" (.literal (.num 1) none)) ambientImports 2 =
      .ok (.paren (.binary (.ident "a") .equalsToken (.numericLiteral 1))) ∧
    translateStatement
        (.expressionStatement (.writeVar "a" (.literal (.num 1) none)) none)
        ambientImports 2 =
      .ok (.mk (.expressionStatement
        (.binary (.ident "a") .equalsToken (.numericLiteral 1))) []) :=
  translate_entry_point_modes ambientImports 2 "a" (.literal (.num 1) none)
    (.numericLiteral 1) (.numericLiteral 1) none rfl rfl

end Translator
